import Mathlib

/-!
Register-level model of `templates/lfs/nucleo-h563zi/hal.h`

A shallow embedding of the hardware-abstraction layer for the NUCLEO-H563ZI
template: the pin encoding macros, the clock constants, the GPIO functions,
`uart_init`, `uart_write_byte`, `uart_write_buf`, `ethernet_init` and
`clock_init`, over an explicit state of 32-bit memory-mapped registers.

Conventions.
* C integers are natural numbers; `u8`, `u16`, `u32` are the conversions to
  `uint8_t`, `uint16_t` and `uint32_t` / `unsigned long` (32 bits on this
  Cortex-M33 target).  A function converts its arguments to their C parameter
  types on entry, as the call does in C.
* A register is named by a constructor of `Reg`; the state `Hw` maps every
  register to its 32-bit content and records the store instructions executed
  so far, oldest first.
* Bit masks that `hal.h` takes from the device header `stm32h563xx.h` (which
  is not among the sources) are parameters, bundled in `DeviceHeader`,
  `EthHeader` and `ClockHeader`.
* Status flags are raised by the hardware: a polling loop runs against a
  device function `dev` and a bound `fuel` on its number of loads, and gives
  `none` when the flag is still clear after `fuel` loads.
-/

namespace Hal

/-! ## C integer conversions -/

/-- Conversion to `uint8_t`. -/
def u8 (x : Nat) : Nat := x % 256

/-- Conversion to `uint16_t`. -/
def u16 (x : Nat) : Nat := x % 65536

/-- Conversion to `uint32_t` (and to `unsigned long`, 32 bits wide here). -/
def u32 (x : Nat) : Nat := x % 4294967296

/-- The C operator `~` on a 32-bit unsigned operand. -/
def not32 (x : Nat) : Nat := 4294967295 ^^^ u32 x

/-! ## Macros of lines 22-26 -/

/-- Macro `#define BIT(x) (1UL << (x))`: a shift in 32-bit `unsigned long`, bits
shifted past bit 31 are lost (C leaves `x >= 32` undefined; the model gives 0
there, as the shift instruction of the target does). -/
def BIT (x : Nat) : Nat := u32 (1 <<< x)

/-- Macro `#define PIN(bank, num) ((((bank) - 'A') << 8) | (num))`, with `bank` the
character code of the bank letter (`'A'` is 65).  Every use in the source
passes a capital letter, for which the natural-number subtraction is the C
one. -/
def PIN (bank num : Nat) : Nat := ((bank - 'A'.toNat) <<< 8) ||| num

/-- Macro `#define PINNO(pin) (pin & 255)`. -/
def PINNO (pin : Nat) : Nat := pin &&& 255

/-- Macro `#define PINBANK(pin) (pin >> 8)`. -/
def PINBANK (pin : Nat) : Nat := pin >>> 8

/-! ## Clock constants of lines 32-44 -/

def HPRE : Nat := 7
def PPRE1 : Nat := 4
def PPRE2 : Nat := 4
def PLL1_HSI : Nat := 64
def PLL1_M : Nat := 32
def PLL1_N : Nat := 250
def PLL1_P : Nat := 2

/-- Macro `#define SYS_FREQUENCY ((PLL1_HSI * PLL1_N / PLL1_M / PLL1_P / (BIT(HPRE - 7))) * 1000000)`;
the product is taken in `unsigned long`. -/
def SYS_FREQUENCY : Nat :=
  u32 ((PLL1_HSI * PLL1_N / PLL1_M / PLL1_P / BIT (HPRE - 7)) * 1000000)

/-- Macro `#define AHB_FREQUENCY SYS_FREQUENCY`. -/
def AHB_FREQUENCY : Nat := SYS_FREQUENCY

/-- Macro `#define APB2_FREQUENCY (AHB_FREQUENCY / (BIT(PPRE2 - 3)))`. -/
def APB2_FREQUENCY : Nat := AHB_FREQUENCY / BIT (PPRE2 - 3)

/-- Macro `#define APB1_FREQUENCY (AHB_FREQUENCY / (BIT(PPRE1 - 3)))`. -/
def APB1_FREQUENCY : Nat := AHB_FREQUENCY / BIT (PPRE1 - 3)

/-! ## Enumerations of lines 50-53 -/

def GPIO_MODE_INPUT : Nat := 0
def GPIO_MODE_OUTPUT : Nat := 1
def GPIO_MODE_AF : Nat := 2
def GPIO_MODE_ANALOG : Nat := 3
def GPIO_OTYPE_PUSH_PULL : Nat := 0
def GPIO_OTYPE_OPEN_DRAIN : Nat := 1
def GPIO_SPEED_LOW : Nat := 0
def GPIO_SPEED_MEDIUM : Nat := 1
def GPIO_SPEED_HIGH : Nat := 2
def GPIO_SPEED_INSANE : Nat := 3
def GPIO_PULL_NONE : Nat := 0
def GPIO_PULL_UP : Nat := 1
def GPIO_PULL_DOWN : Nat := 2

/-! ## Registers and machine state -/

/-- The value of a `USART_TypeDef *` argument: one of the three instances
`uart_init` compares its argument with, or any other address. -/
inductive USART_Ptr where
  | USART1
  | USART2
  | USART3
  | other (addr : Nat)
  deriving DecidableEq, Repr

/-- The memory-mapped registers `hal.h` accesses.  A GPIO register carries the
index `N` of its bank, the block `GPIO(N)` at `GPIOA_BASE_NS + 0x400 * N`;
`GPIO_AFR bank i` is the word `AFR[i]` of that block.  A USART register
carries the instance it belongs to. -/
inductive Reg where
  | RCC_CR
  | RCC_CFGR1
  | RCC_CFGR2
  | RCC_PLL1CFGR
  | RCC_PLL1DIVR
  | RCC_AHB1ENR
  | RCC_AHB2ENR
  | RCC_APB1LENR
  | RCC_APB2ENR
  | RCC_APB3ENR
  | RCC_CCIPR5
  | GPIO_MODER (bank : Nat)
  | GPIO_OTYPER (bank : Nat)
  | GPIO_OSPEEDR (bank : Nat)
  | GPIO_PUPDR (bank : Nat)
  | GPIO_IDR (bank : Nat)
  | GPIO_ODR (bank : Nat)
  | GPIO_BSRR (bank : Nat)
  | GPIO_AFR (bank : Nat) (i : Nat)
  | USART_CR1 (uart : USART_Ptr)
  | USART_BRR (uart : USART_Ptr)
  | USART_ISR (uart : USART_Ptr)
  | USART_TDR (uart : USART_Ptr)
  | USART_RDR (uart : USART_Ptr)
  | RNG_CR
  | RNG_SR
  | RNG_DR
  | PWR_SCCR
  | PWR_VOSCR
  | PWR_VOSSR
  | FLASH_ACR
  | SBS_PMCR
  | SCB_CPACR
  | NVIC_ISER (i : Nat)
  deriving DecidableEq, Repr

/-- Machine state: the content of every register (a 32-bit word) and the
sequence of store instructions executed so far, oldest first, each with the
register it addressed and the word it stored.  For a GPIO bank, `GPIO_IDR`
holds the levels driven onto the pins from outside. -/
structure Hw where
  mem : Reg → Nat
  log : List (Reg × Nat)
  wf : ∀ r, mem r < 4294967296

/-- An example state: every register zero, nothing stored yet. -/
def Hw.zero : Hw := ⟨fun _ => 0, [], fun _ => Nat.succ_pos _⟩

/-- Replace the content of one register, without recording a store. -/
def Hw.store (s : Hw) (r : Reg) (v : Nat) : Hw :=
  { mem := Function.update s.mem r (u32 v)
    log := s.log
    wf := by
      intro q
      by_cases h : q = r
      · subst h
        rw [Function.update_same]
        exact Nat.mod_lt _ (by decide)
      · rw [Function.update_noteq h]
        exact s.wf q }

/-- Word whose bit `i` is `f i` for `i < k`, and whose other bits are zero. -/
def wordOfBits (f : Nat → Bool) : Nat → Nat
  | 0 => 0
  | k + 1 => wordOfBits f k ||| (if f k then 1 <<< k else 0)

/-- Level seen on pin `i` of a bank: an output pin (MODER field
`GPIO_MODE_OUTPUT`) shows its ODR bit, any other pin the level driven from
outside. -/
def Hw.pinLevel (s : Hw) (bank i : Nat) : Bool :=
  if (s.mem (.GPIO_MODER bank) >>> (2 * i)) &&& 3 = GPIO_MODE_OUTPUT then
    (s.mem (.GPIO_ODR bank)).testBit i
  else
    (s.mem (.GPIO_IDR bank)).testBit i

/-- A load from a register.  IDR shows the sixteen pin levels, BSRR is
write-only and reads as zero, every other register returns its content. -/
def Hw.read (s : Hw) : Reg → Nat
  | .GPIO_IDR bank => wordOfBits (s.pinLevel bank) 16
  | .GPIO_BSRR _ => 0
  | r => s.mem r

/-- A store of the word `v` to a register: it is recorded in the log, and
the register takes the word, except that a store `w` to BSRR acts on ODR,
clearing the bits given by the high half of `w` and setting the bits given by
its low half (set wins). -/
def Hw.write (s : Hw) (r : Reg) (v : Nat) : Hw :=
  let t : Hw := { mem := s.mem, log := s.log ++ [(r, u32 v)], wf := s.wf }
  match r with
  | .GPIO_BSRR bank =>
      t.store (.GPIO_ODR bank)
        ((t.mem (.GPIO_ODR bank) &&& not32 (u32 v >>> 16)) ||| (u32 v &&& 65535))
  | _ => t.store r v

/-- Macro `#define CLRSET(R, CLEARMASK, SETMASK) (R) = ((R) & ~(CLEARMASK)) | (SETMASK)`:
one load of `R` and one store to it. -/
def CLRSET (s : Hw) (R : Reg) (CLEARMASK SETMASK : Nat) : Hw :=
  s.write R ((s.read R &&& not32 CLEARMASK) ||| SETMASK)

/-! ## GPIO functions, lines 55-91 -/

/-- Macro `#define GPIO(N) ((GPIO_TypeDef *) ((GPIOA_BASE_NS) + 0x400 * (N)))`: the
block is identified by its index `N`. -/
def GPIO (N : Nat) : Nat := N

/-- Function `gpio_bank`, line 57. -/
def gpio_bank (pin : Nat) : Nat := GPIO (PINBANK (u16 pin))

/-- Function `gpio_toggle`, line 60. -/
def gpio_toggle (s : Hw) (pin : Nat) : Hw :=
  let pin := u16 pin
  let gpio := gpio_bank pin
  let mask := BIT (PINNO pin)
  s.write (.GPIO_BSRR gpio)
    (u32 (mask <<< (if s.read (.GPIO_ODR gpio) &&& mask ≠ 0 then 16 else 0)))

/-- Function `gpio_read`, line 65. -/
def gpio_read (s : Hw) (pin : Nat) : Nat :=
  let pin := u16 pin
  if s.read (.GPIO_IDR (gpio_bank pin)) &&& BIT (PINNO pin) ≠ 0 then 1 else 0

/-- Function `gpio_write`, line 68. -/
def gpio_write (s : Hw) (pin : Nat) (val : Bool) : Hw :=
  let pin := u16 pin
  let gpio := gpio_bank pin
  s.write (.GPIO_BSRR gpio) (u32 (BIT (PINNO pin) <<< (if val then 0 else 16)))

/-- Function `gpio_init`, line 72. -/
def gpio_init (s : Hw) (pin mode type speed pull af : Nat) : Hw :=
  let pin := u16 pin
  let mode := u8 mode
  let type := u8 type
  let speed := u8 speed
  let pull := u8 pull
  let af := u8 af
  let gpio := gpio_bank pin
  let n := u8 (PINNO pin)
  let s := s.write .RCC_AHB2ENR (s.read .RCC_AHB2ENR ||| BIT (PINBANK pin))
  let s := CLRSET s (.GPIO_OTYPER gpio) (u32 (1 <<< n)) (u32 (type <<< n))
  let s := CLRSET s (.GPIO_OSPEEDR gpio) (u32 (3 <<< (n * 2))) (u32 (speed <<< (n * 2)))
  let s := CLRSET s (.GPIO_PUPDR gpio) (u32 (3 <<< (n * 2))) (u32 (pull <<< (n * 2)))
  let s := CLRSET s (.GPIO_AFR gpio (n >>> 3)) (u32 (15 <<< ((n &&& 7) * 4)))
    (u32 (af <<< ((n &&& 7) * 4)))
  CLRSET s (.GPIO_MODER gpio) (u32 (3 <<< (n * 2))) (u32 (mode <<< (n * 2)))

/-- Function `gpio_input`, line 84. -/
def gpio_input (s : Hw) (pin : Nat) : Hw :=
  gpio_init s pin GPIO_MODE_INPUT GPIO_OTYPE_PUSH_PULL GPIO_SPEED_HIGH GPIO_PULL_NONE 0

/-- Function `gpio_output`, line 88. -/
def gpio_output (s : Hw) (pin : Nat) : Hw :=
  gpio_init s pin GPIO_MODE_OUTPUT GPIO_OTYPE_PUSH_PULL GPIO_SPEED_HIGH GPIO_PULL_NONE 0

/-! ## UART initialisation, lines 93-117 -/

/-- Bit masks that `hal.h` takes from the device header `stm32h563xx.h`, which
is not among the sources: the development is parametric in their values, known
only to be 32-bit constants. -/
structure DeviceHeader where
  RCC_APB2ENR_USART1EN : Nat
  RCC_APB1LENR_USART2EN : Nat
  RCC_APB1LENR_USART3EN : Nat
  USART_CR1_UE : Nat
  USART_CR1_RE : Nat
  USART_CR1_TE : Nat
  fits : RCC_APB2ENR_USART1EN < 4294967296 ∧ RCC_APB1LENR_USART2EN < 4294967296 ∧
    RCC_APB1LENR_USART3EN < 4294967296 ∧ USART_CR1_UE < 4294967296 ∧
    USART_CR1_RE < 4294967296 ∧ USART_CR1_TE < 4294967296

/-- The masks as the reference manual RM0481 places them (USART1EN is bit 14
of APB2ENR, USART2EN and USART3EN bits 17 and 18 of APB1LENR, UE, RE and TE
bits 0, 2 and 3 of CR1); used for examples only. -/
def stm32h563 : DeviceHeader :=
  { RCC_APB2ENR_USART1EN := 16384
    RCC_APB1LENR_USART2EN := 131072
    RCC_APB1LENR_USART3EN := 262144
    USART_CR1_UE := 1
    USART_CR1_RE := 4
    USART_CR1_TE := 8
    fits := by decide }

/-- The expression `freq / baud` of line 113, on `uint32_t freq` and
`unsigned long baud`: unsigned division, the remainder is dropped.  (For
`baud = 0`, undefined in C, the model gives 0.) -/
def baud_divisor (freq baud : Nat) : Nat := u32 freq / u32 baud

/-- The if-chain of lines 98-109: the clock-enable store, and the bus
frequency and the pins `tx`, `rx` chosen for the instance; `none` is the final
`else` branch. -/
def uart_select (hdr : DeviceHeader) (s : Hw) (uart : USART_Ptr) :
    Option (Hw × Nat × Nat × Nat) :=
  if uart = .USART1 then
    some (s.write .RCC_APB2ENR (s.read .RCC_APB2ENR ||| hdr.RCC_APB2ENR_USART1EN),
      u32 APB2_FREQUENCY, u16 (PIN 'A'.toNat 9), u16 (PIN 'A'.toNat 10))
  else if uart = .USART2 then
    some (s.write .RCC_APB1LENR (s.read .RCC_APB1LENR ||| hdr.RCC_APB1LENR_USART2EN),
      u32 APB1_FREQUENCY, u16 (PIN 'A'.toNat 2), u16 (PIN 'A'.toNat 3))
  else if uart = .USART3 then
    some (s.write .RCC_APB1LENR (s.read .RCC_APB1LENR ||| hdr.RCC_APB1LENR_USART3EN),
      u32 APB1_FREQUENCY, u16 (PIN 'D'.toNat 8), u16 (PIN 'D'.toNat 9))
  else
    none

/-- Function `uart_init`, line 93: the returned flag and the state it leaves. -/
def uart_init (hdr : DeviceHeader) (s : Hw) (uart : USART_Ptr) (baud : Nat) : Bool × Hw :=
  let baud := u32 baud
  let af := 7
  match uart_select hdr s uart with
  | none => (false, s)
  | some (s, freq, tx, rx) =>
    let s := gpio_init s tx GPIO_MODE_AF GPIO_OTYPE_PUSH_PULL GPIO_SPEED_HIGH 0 af
    let s := gpio_init s rx GPIO_MODE_AF GPIO_OTYPE_PUSH_PULL GPIO_SPEED_HIGH 0 af
    let s := s.write (.USART_CR1 uart) 0
    let s := s.write (.USART_BRR uart) (baud_divisor freq baud)
    let s := s.write (.USART_CR1 uart) (hdr.USART_CR1_RE ||| hdr.USART_CR1_TE)
    let s := s.write (.USART_CR1 uart) (s.read (.USART_CR1 uart) ||| hdr.USART_CR1_UE)
    (true, s)

/-! ## MAC address derivation, lines 163-172 -/

/-- Macro `GENERATE_LOCALLY_ADMINISTERED_MAC()`, the six initialisers in order.
`UUID i` is the 32-bit word `UUID[i]` read at `UID_BASE + 4 * i`. -/
def GENERATE_LOCALLY_ADMINISTERED_MAC (UUID : Nat → Nat) : List Nat :=
  [2,
   u32 (UUID 0) &&& 255,
   (u32 (UUID 0) >>> 10) &&& 255,
   (u32 (UUID 0) >>> 19) &&& 255,
   u32 (UUID 1) &&& 255,
   u32 (UUID 2) &&& 255]

/-! ## Reading the configuration of a pin

Accessors used to state properties; the field positions are those of the
GPIO registers: one bit per pin in OTYPER, two in OSPEEDR, PUPDR and MODER,
four in AFR[0] (pins 0-7) and AFR[1] (pins 8-15). -/

/-- Bits `[k + w - 1 : k]` of the word `R`. -/
def bits (R k w : Nat) : Nat := (R >>> k) % 2 ^ w

/-- Output-type field of pin `m` of a bank: bit `m` of OTYPER. -/
def pinType (s : Hw) (bank m : Nat) : Nat := bits (s.mem (.GPIO_OTYPER bank)) m 1

/-- Speed field of pin `m`: bits `[2m+1 : 2m]` of OSPEEDR. -/
def pinSpeed (s : Hw) (bank m : Nat) : Nat := bits (s.mem (.GPIO_OSPEEDR bank)) (2 * m) 2

/-- Pull field of pin `m`: bits `[2m+1 : 2m]` of PUPDR. -/
def pinPull (s : Hw) (bank m : Nat) : Nat := bits (s.mem (.GPIO_PUPDR bank)) (2 * m) 2

/-- Alternate-function field of pin `m`: bits `[4(m mod 8)+3 : 4(m mod 8)]` of
`AFR[m / 8]`. -/
def pinAF (s : Hw) (bank m : Nat) : Nat :=
  bits (s.mem (.GPIO_AFR bank (m / 8))) (4 * (m % 8)) 4

/-- Mode field of pin `m`: bits `[2m+1 : 2m]` of MODER. -/
def pinMode (s : Hw) (bank m : Nat) : Nat := bits (s.mem (.GPIO_MODER bank)) (2 * m) 2

/-- The configuration of a pin given by its encoded value: its mode, type,
speed, pull and alternate-function fields, in the order of the arguments of
`gpio_init`. -/
def pinConfig (s : Hw) (pin : Nat) : Nat × Nat × Nat × Nat × Nat :=
  (pinMode s (PINBANK pin) (PINNO pin), pinType s (PINBANK pin) (PINNO pin),
    pinSpeed s (PINBANK pin) (PINNO pin), pinPull s (PINBANK pin) (PINNO pin),
    pinAF s (PINBANK pin) (PINNO pin))

/-- The bank a GPIO register belongs to; `none` for a register of another
peripheral. -/
def Reg.gpioBank : Reg → Option Nat
  | .GPIO_MODER b => some b
  | .GPIO_OTYPER b => some b
  | .GPIO_OSPEEDR b => some b
  | .GPIO_PUPDR b => some b
  | .GPIO_IDR b => some b
  | .GPIO_ODR b => some b
  | .GPIO_BSRR b => some b
  | .GPIO_AFR b _ => some b
  | _ => none

/-- Word that `CLRSET` stores into a register holding `R`. -/
def clrsetVal (R C S : Nat) : Nat := u32 ((R &&& not32 C) ||| S)

/-- The stores executed on the way from state `s` to state `s'`, oldest
first: what the log of `s'` holds beyond the length of the log of `s`. -/
def storesSince (s s' : Hw) : List (Reg × Nat) := s'.log.drop s.log.length

/-! ## Ethernet wiring, lines 147-161 -/

/-- Constants that `ethernet_init` takes from the device header
`stm32h563xx.h`, which is not among the sources; the development is
parametric in their values. -/
structure EthHeader where
  ETH_IRQn : Nat
  RCC_APB3ENR_SBSEN : Nat
  SBS_PMCR_ETH_SEL_PHY : Nat
  SBS_PMCR_ETH_SEL_PHY_2 : Nat
  RCC_AHB1ENR_ETHEN : Nat
  RCC_AHB1ENR_ETHRXEN : Nat
  RCC_AHB1ENR_ETHTXEN : Nat

/-- Modelled from the spec: `NVIC_EnableIRQ` is a function of the CMSIS core
header, which is not among the sources.  The spec says the call "enables the
Ethernet interrupt line at the interrupt controller"; it is modelled as the
store of the bit of the line to the set-enable word `NVIC->ISER[IRQn >> 5]`. -/
def NVIC_EnableIRQ (s : Hw) (IRQn : Nat) : Hw :=
  s.write (.NVIC_ISER (u32 IRQn >>> 5)) (BIT (u32 IRQn &&& 31))

/-- The array `pins` of line 150, of `uint16_t` elements. -/
def ethernet_pins : List Nat :=
  [u16 (PIN 'A'.toNat 1), u16 (PIN 'A'.toNat 2), u16 (PIN 'A'.toNat 7),
   u16 (PIN 'B'.toNat 15), u16 (PIN 'C'.toNat 1), u16 (PIN 'C'.toNat 4),
   u16 (PIN 'C'.toNat 5), u16 (PIN 'G'.toNat 11), u16 (PIN 'G'.toNat 13)]

/-- Function `ethernet_init`, line 148: the loop over `pins`, then the
interrupt line, the SBS clock, the RMII selection and the Ethernet clocks. -/
def ethernet_init (hdr : EthHeader) (s : Hw) : Hw :=
  let s := ethernet_pins.foldl
    (fun s pin =>
      gpio_init s pin GPIO_MODE_AF GPIO_OTYPE_PUSH_PULL GPIO_SPEED_INSANE GPIO_PULL_NONE 11) s
  let s := NVIC_EnableIRQ s hdr.ETH_IRQn
  let s := s.write .RCC_APB3ENR (s.read .RCC_APB3ENR ||| hdr.RCC_APB3ENR_SBSEN)
  let s := CLRSET s .SBS_PMCR hdr.SBS_PMCR_ETH_SEL_PHY hdr.SBS_PMCR_ETH_SEL_PHY_2
  s.write .RCC_AHB1ENR
    (s.read .RCC_AHB1ENR |||
      (hdr.RCC_AHB1ENR_ETHEN ||| hdr.RCC_AHB1ENR_ETHRXEN ||| hdr.RCC_AHB1ENR_ETHTXEN))

/-! ## Polling loops

A status flag is raised by the hardware, not by a store of the program.  The
hardware is a parameter `dev`: the function it applies to the register
contents while the program waits.  A polling loop `while (flag clear) spin(1);`
loads the status register, leaves when the flag is set, and otherwise lets the
hardware proceed and loads again; `fuel` bounds the number of loads, and the
result is `none` when the flag is still clear after that many loads (the loop
of the source has no bound and would go on spinning). -/

/-- One step of the hardware: the device function applied to the register
contents (kept to 32 bits).  The hardware executes no store of the program,
the log is unchanged. -/
def Hw.tick (dev : (Reg → Nat) → Reg → Nat) (s : Hw) : Hw :=
  { mem := fun r => u32 (dev s.mem r)
    log := s.log
    wf := fun _ => Nat.mod_lt _ (Nat.succ_pos _) }

/-- Function `spin`, line 46: `n` iterations of an empty loop; no register is
accessed, the hardware proceeds by one step per iteration. -/
def spin (dev : (Reg → Nat) → Reg → Nat) (n : Nat) (s : Hw) : Hw :=
  (Hw.tick dev)^[u32 n] s

/-- The loop `while (!ready) spin(1);` with at most `fuel` evaluations of the
condition `ready`, which loads a status register. -/
def pollUntil (dev : (Reg → Nat) → Reg → Nat) (ready : Hw → Bool) : Nat → Hw → Option Hw
  | 0, _ => none
  | fuel + 1, s => if ready s then some s else pollUntil dev ready fuel (spin dev 1 s)

/-! ## UART transmission, lines 118-125 -/

/-- Function `uart_write_byte`, line 118: the store to TDR, then the loop
`while ((uart->ISR & BIT(7)) == 0) spin(1);`. -/
def uart_write_byte (dev : (Reg → Nat) → Reg → Nat) (fuel : Nat) (s : Hw) (uart : USART_Ptr)
    (byte : Nat) : Option Hw :=
  let byte := u8 byte
  let s := s.write (.USART_TDR uart) byte
  pollUntil dev (fun t => decide (t.read (.USART_ISR uart) &&& BIT 7 ≠ 0)) fuel s

/-- The loop `while (len-- > 0) uart_write_byte(uart, *(uint8_t *) buf++);` of
line 124 with `len` iterations left and `buf` advanced by `i`; `buf i` is the
byte at offset `i` of the buffer. -/
def uart_write_buf_loop (dev : (Reg → Nat) → Reg → Nat) (fuel : Nat) (uart : USART_Ptr)
    (buf : Nat → Nat) : Nat → Nat → Hw → Option Hw
  | 0, _, s => some s
  | len + 1, i, s =>
    match uart_write_byte dev fuel s uart (u8 (buf i)) with
    | none => none
    | some s' => uart_write_buf_loop dev fuel uart buf len (i + 1) s'

/-- Function `uart_write_buf`, line 122; `len` is a `size_t`, 32 bits wide
here.  Each byte has `fuel` loads of ISR at its disposal. -/
def uart_write_buf (dev : (Reg → Nat) → Reg → Nat) (fuel : Nat) (s : Hw) (uart : USART_Ptr)
    (buf : Nat → Nat) (len : Nat) : Option Hw :=
  uart_write_buf_loop dev fuel uart buf (u32 len) 0 s

/-! ## Clock tree bring-up, lines 143-145 and 192-218 -/

/-- The device raises the flag `ready` within `fuel` loads: from every state,
one of the first `fuel` states the hardware passes through has the flag
set. -/
def becomesReady (dev : (Reg → Nat) → Reg → Nat) (ready : Hw → Bool) (fuel : Nat) : Prop :=
  ∀ s : Hw, ∃ k, k < fuel ∧ ready ((Hw.tick dev)^[k] s) = true

/-- Content `gpio_init` on pin number `n` of bank `b` leaves in the register
`r` that held `x`. -/
def gpioStep (b n mode type speed pull af : Nat) (r : Reg) (x : Nat) : Nat :=
  if r = .GPIO_MODER b then clrsetVal x (u32 (3 <<< (n * 2))) (u32 (mode <<< (n * 2)))
  else if r = .GPIO_AFR b (n >>> 3) then
    clrsetVal x (u32 (15 <<< ((n &&& 7) * 4))) (u32 (af <<< ((n &&& 7) * 4)))
  else if r = .GPIO_PUPDR b then clrsetVal x (u32 (3 <<< (n * 2))) (u32 (pull <<< (n * 2)))
  else if r = .GPIO_OSPEEDR b then clrsetVal x (u32 (3 <<< (n * 2))) (u32 (speed <<< (n * 2)))
  else if r = .GPIO_OTYPER b then clrsetVal x (u32 (1 <<< n)) (u32 (type <<< n))
  else if r = .RCC_AHB2ENR then u32 (x ||| BIT b)
  else x

/-! ## Example devices and states -/

/-- An example device that raises every flag the source polls within one
step: the ready flags of `exampleClockHeader` in PWR VOSSR and RCC CR, the
value 3 in bits 5:3 of RCC CFGR1, and bit 7 of every USART ISR (bit 6 stays as
it is). -/
def promptDevice : (Reg → Nat) → Reg → Nat := fun m r =>
  match r with
  | .PWR_VOSSR => m r ||| 8192
  | .RCC_CR => m r ||| 2 ||| 33554432
  | .RCC_CFGR1 => (m r &&& not32 56) ||| 24
  | .USART_ISR _ => m r ||| 128
  | _ => m r

/-! ## Lemmas on the integer conversions and on `gpio_init` -/

theorem u32_of_lt {x : Nat} (h : x < 4294967296) : u32 x = x := Nat.mod_eq_of_lt h
theorem u16_of_lt {x : Nat} (h : x < 65536) : u16 x = x := Nat.mod_eq_of_lt h
theorem u8_of_lt {x : Nat} (h : x < 256) : u8 x = x := Nat.mod_eq_of_lt h
theorem u32_lt (x : Nat) : u32 x < 4294967296 := Nat.mod_lt _ (by decide)
theorem u16_u16 (x : Nat) : u16 (u16 x) = u16 x := Nat.mod_mod _ _
theorem u32_u32 (x : Nat) : u32 (u32 x) = u32 x := Nat.mod_mod _ _
theorem PINNO_lt (pin : Nat) : PINNO pin < 256 :=
  Nat.lt_of_le_of_lt Nat.and_le_right (by decide)

theorem gpio_init_mem (s : Hw) (pin mode type speed pull af : Nat) (r : Reg) :
    (gpio_init s pin mode type speed pull af).mem r =
      if r = .GPIO_MODER (PINBANK (u16 pin)) then
        clrsetVal (s.mem r) (u32 (3 <<< (u8 (PINNO (u16 pin)) * 2)))
          (u32 (u8 mode <<< (u8 (PINNO (u16 pin)) * 2)))
      else if r = .GPIO_AFR (PINBANK (u16 pin)) (u8 (PINNO (u16 pin)) >>> 3) then
        clrsetVal (s.mem r) (u32 (15 <<< ((u8 (PINNO (u16 pin)) &&& 7) * 4)))
          (u32 (u8 af <<< ((u8 (PINNO (u16 pin)) &&& 7) * 4)))
      else if r = .GPIO_PUPDR (PINBANK (u16 pin)) then
        clrsetVal (s.mem r) (u32 (3 <<< (u8 (PINNO (u16 pin)) * 2)))
          (u32 (u8 pull <<< (u8 (PINNO (u16 pin)) * 2)))
      else if r = .GPIO_OSPEEDR (PINBANK (u16 pin)) then
        clrsetVal (s.mem r) (u32 (3 <<< (u8 (PINNO (u16 pin)) * 2)))
          (u32 (u8 speed <<< (u8 (PINNO (u16 pin)) * 2)))
      else if r = .GPIO_OTYPER (PINBANK (u16 pin)) then
        clrsetVal (s.mem r) (u32 (1 <<< u8 (PINNO (u16 pin))))
          (u32 (u8 type <<< u8 (PINNO (u16 pin))))
      else if r = .RCC_AHB2ENR then u32 (s.mem r ||| BIT (PINBANK (u16 pin)))
      else s.mem r := by
  simp only [gpio_init, CLRSET, Hw.write, Hw.store, Hw.read, gpio_bank, GPIO, u16_u16,
    Function.update_apply, clrsetVal]
  split_ifs <;> simp_all

/-! ## Bit-level lemmas on the word stored by `CLRSET` -/

theorem testBit_not32 (x i : Nat) :
    (not32 x).testBit i = (decide (i < 32) && !x.testBit i) := by
  have e : (4294967295 : Nat) = 2 ^ 32 - 1 := by norm_num
  have e2 : (4294967296 : Nat) = 2 ^ 32 := by norm_num
  unfold not32 u32
  rw [e, e2]
  simp only [Nat.testBit_xor, Nat.testBit_two_pow_sub_one, Nat.testBit_mod_two_pow]
  by_cases h : i < 32 <;> simp [h]

theorem testBit_u32 (x i : Nat) : (u32 x).testBit i = (decide (i < 32) && x.testBit i) := by
  have e2 : (4294967296 : Nat) = 2 ^ 32 := by norm_num
  unfold u32
  rw [e2, Nat.testBit_mod_two_pow]

theorem testBit_of_lt_two_pow {v w j : Nat} (hv : v < 2 ^ w) (hj : w ≤ j) :
    v.testBit j = false :=
  Nat.testBit_lt_two_pow (lt_of_lt_of_le hv (Nat.pow_le_pow_right (by norm_num) hj))

theorem clrsetVal_testBit (R msk v k w i : Nat) (hm : msk = 2 ^ w - 1) :
    (clrsetVal R (u32 (msk <<< k)) (u32 (v <<< k))).testBit i =
      (decide (i < 32) &&
        ((R.testBit i && !(decide (k ≤ i) && decide (i - k < w))) ||
          (decide (k ≤ i) && v.testBit (i - k)))) := by
  subst hm
  unfold clrsetVal
  simp only [testBit_u32, testBit_not32, Nat.testBit_or, Nat.testBit_and,
    Nat.testBit_shiftLeft, Nat.testBit_two_pow_sub_one, ge_iff_le]
  by_cases h : i < 32 <;> simp [h]

theorem bits_testBit (R k w j : Nat) :
    (bits R k w).testBit j = (decide (j < w) && R.testBit (k + j)) := by
  unfold bits
  rw [Nat.testBit_mod_two_pow, Nat.testBit_shiftRight]

theorem field_readback (R msk v k w : Nat) (hm : msk = 2 ^ w - 1) (hv : v < 2 ^ w)
    (hk : k + w ≤ 32) :
    bits (clrsetVal R (u32 (msk <<< k)) (u32 (v <<< k))) k w = v := by
  apply Nat.eq_of_testBit_eq
  intro j
  rw [bits_testBit, clrsetVal_testBit R msk v k w (k + j) hm]
  by_cases hj : j < w
  · have h1 : k + j < 32 := by omega
    have h2 : k + j - k = j := by omega
    simp [hj, h1, h2]
  · simp [hj, testBit_of_lt_two_pow hv (Nat.le_of_not_lt hj)]

theorem field_below (R msk v k w k1 w1 : Nat) (hm : msk = 2 ^ w - 1)
    (hR : R < 4294967296) (h : k1 + w1 ≤ k) :
    bits (clrsetVal R (u32 (msk <<< k)) (u32 (v <<< k))) k1 w1 = bits R k1 w1 := by
  apply Nat.eq_of_testBit_eq
  intro j
  rw [bits_testBit, bits_testBit, clrsetVal_testBit R msk v k w (k1 + j) hm]
  by_cases hj : j < w1
  · have h1 : ¬ (k ≤ k1 + j) := by omega
    by_cases h32 : k1 + j < 32
    · simp [hj, h1, h32]
    · have : R.testBit (k1 + j) = false :=
        testBit_of_lt_two_pow (w := 32) (by simpa using hR) (by omega)
      simp [hj, h1, h32, this]
  · simp [hj]

theorem field_above (R msk v k w k1 w1 : Nat) (hm : msk = 2 ^ w - 1)
    (hR : R < 4294967296) (hv : v < 2 ^ w) (h : k + w ≤ k1) :
    bits (clrsetVal R (u32 (msk <<< k)) (u32 (v <<< k))) k1 w1 = bits R k1 w1 := by
  apply Nat.eq_of_testBit_eq
  intro j
  rw [bits_testBit, bits_testBit, clrsetVal_testBit R msk v k w (k1 + j) hm]
  by_cases hj : j < w1
  · have h1 : ¬ (k1 + j - k < w) := by omega
    have h2 : v.testBit (k1 + j - k) = false := testBit_of_lt_two_pow hv (by omega)
    by_cases h32 : k1 + j < 32
    · simp [hj, h1, h2, h32]
    · have : R.testBit (k1 + j) = false :=
        testBit_of_lt_two_pow (w := 32) (by simpa using hR) (by omega)
      simp [hj, h1, h2, h32, this]
  · simp [hj]

theorem bit_outside (R msk v k w i : Nat) (hm : msk = 2 ^ w - 1)
    (hR : R < 4294967296) (hv : v < 2 ^ w) (h : i < k ∨ k + w ≤ i) :
    (clrsetVal R (u32 (msk <<< k)) (u32 (v <<< k))).testBit i = R.testBit i := by
  rw [clrsetVal_testBit R msk v k w i hm]
  have hR32 : ¬ i < 32 → R.testBit i = false := fun h32 =>
    testBit_of_lt_two_pow (w := 32) (by simpa using hR) (by omega)
  rcases h with h | h
  · have h1 : ¬ (k ≤ i) := by omega
    by_cases h32 : i < 32
    · simp [h1, h32]
    · simp [h1, h32, hR32 h32]
  · have h1 : ¬ (i - k < w) := by omega
    have h2 : v.testBit (i - k) = false := testBit_of_lt_two_pow hv (by omega)
    by_cases h32 : i < 32
    · simp [h1, h2, h32]
    · simp [h1, h2, h32, hR32 h32]

/-! ## The registers of the pin's bank after `gpio_init` -/

theorem shr3 (n : Nat) : n >>> 3 = n / 8 := by
  rw [Nat.shiftRight_eq_div_pow]
theorem and7 (n : Nat) : n &&& 7 = n % 8 := Nat.and_pow_two_sub_one_eq_mod n 3

theorem gpio_init_OTYPER (s : Hw) (pin mode type speed pull af : Nat) (hpin : pin < 65536) :
    (gpio_init s pin mode type speed pull af).mem (.GPIO_OTYPER (PINBANK pin)) =
      clrsetVal (s.mem (.GPIO_OTYPER (PINBANK pin))) (u32 (1 <<< PINNO pin))
        (u32 (u8 type <<< PINNO pin)) := by
  rw [gpio_init_mem]
  simp [u16_of_lt hpin, u8_of_lt (PINNO_lt pin)]

theorem gpio_init_OSPEEDR (s : Hw) (pin mode type speed pull af : Nat) (hpin : pin < 65536) :
    (gpio_init s pin mode type speed pull af).mem (.GPIO_OSPEEDR (PINBANK pin)) =
      clrsetVal (s.mem (.GPIO_OSPEEDR (PINBANK pin))) (u32 (3 <<< (2 * PINNO pin)))
        (u32 (u8 speed <<< (2 * PINNO pin))) := by
  rw [gpio_init_mem]
  simp [u16_of_lt hpin, u8_of_lt (PINNO_lt pin), Nat.mul_comm]

theorem gpio_init_PUPDR (s : Hw) (pin mode type speed pull af : Nat) (hpin : pin < 65536) :
    (gpio_init s pin mode type speed pull af).mem (.GPIO_PUPDR (PINBANK pin)) =
      clrsetVal (s.mem (.GPIO_PUPDR (PINBANK pin))) (u32 (3 <<< (2 * PINNO pin)))
        (u32 (u8 pull <<< (2 * PINNO pin))) := by
  rw [gpio_init_mem]
  simp [u16_of_lt hpin, u8_of_lt (PINNO_lt pin), Nat.mul_comm]

theorem gpio_init_MODER (s : Hw) (pin mode type speed pull af : Nat) (hpin : pin < 65536) :
    (gpio_init s pin mode type speed pull af).mem (.GPIO_MODER (PINBANK pin)) =
      clrsetVal (s.mem (.GPIO_MODER (PINBANK pin))) (u32 (3 <<< (2 * PINNO pin)))
        (u32 (u8 mode <<< (2 * PINNO pin))) := by
  rw [gpio_init_mem]
  simp [u16_of_lt hpin, u8_of_lt (PINNO_lt pin), Nat.mul_comm]

theorem gpio_init_AFR (s : Hw) (pin mode type speed pull af : Nat) (hpin : pin < 65536) :
    (gpio_init s pin mode type speed pull af).mem (.GPIO_AFR (PINBANK pin) (PINNO pin / 8)) =
      clrsetVal (s.mem (.GPIO_AFR (PINBANK pin) (PINNO pin / 8)))
        (u32 (15 <<< (4 * (PINNO pin % 8)))) (u32 (u8 af <<< (4 * (PINNO pin % 8)))) := by
  rw [gpio_init_mem]
  simp [u16_of_lt hpin, u8_of_lt (PINNO_lt pin), Nat.mul_comm, shr3, and7]

theorem gpio_init_AFR_other (s : Hw) (pin mode type speed pull af j : Nat)
    (hpin : pin < 65536) (hj : j ≠ PINNO pin / 8) :
    (gpio_init s pin mode type speed pull af).mem (.GPIO_AFR (PINBANK pin) j) =
      s.mem (.GPIO_AFR (PINBANK pin) j) := by
  rw [gpio_init_mem]
  simp [u16_of_lt hpin, u8_of_lt (PINNO_lt pin), shr3, hj]

theorem gpio_init_other_bank (s : Hw) (pin mode type speed pull af : Nat) (r : Reg) (b : Nat)
    (hpin : pin < 65536) (hr : r.gpioBank = some b) (hb : b ≠ PINBANK pin) :
    (gpio_init s pin mode type speed pull af).mem r = s.mem r := by
  rw [gpio_init_mem]
  cases r <;> simp_all [Reg.gpioBank, u16_of_lt hpin]

/-! ## Pin encoding and GPIO configuration -/

/-- C1: for every bank letter `b` in 'A'..'Z' and every number `n` in 0..15,
`PINNO (PIN b n) = n` and `PINBANK (PIN b n) = b - 'A'`, both on the value of
the macro and on that value converted to the `uint16_t` pin parameter. -/
theorem C1_pin_roundtrip (b n : Nat) (hA : 'A'.toNat ≤ b) (hZ : b ≤ 'Z'.toNat)
    (hn : n ≤ 15) :
    PINNO (PIN b n) = n ∧ PINBANK (PIN b n) = b - 'A'.toNat ∧
      PINNO (u16 (PIN b n)) = n ∧ PINBANK (u16 (PIN b n)) = b - 'A'.toNat := by
  have h1 : 65 ≤ b := hA
  have h2 : b ≤ 90 := hZ
  interval_cases b <;> interval_cases n <;> decide

/-- Witness of C1 at PG13. -/
theorem C1_pin_roundtrip_witness :
    PINNO (PIN 'G'.toNat 13) = 13 ∧ PINBANK (PIN 'G'.toNat 13) = 'G'.toNat - 'A'.toNat ∧
      PINNO (u16 (PIN 'G'.toNat 13)) = 13 ∧
      PINBANK (u16 (PIN 'G'.toNat 13)) = 'G'.toNat - 'A'.toNat :=
  C1_pin_roundtrip 'G'.toNat 13 (by decide) (by decide) (by decide)

/-- C2: for a pin with number `n` in 0..15, any prior state and in-range
values (`mode <= 3`, `type <= 1`, `speed <= 3`, `pull <= 3`, `af <= 15`),
after `gpio_init` the type, speed, pull, alternate-function and mode fields of
the pin each read back the value passed in. -/
theorem C2_gpio_init_readback (s : Hw) (pin mode type speed pull af : Nat)
    (hpin : pin < 65536) (hn : PINNO pin ≤ 15) (hmode : mode ≤ 3) (htype : type ≤ 1)
    (hspeed : speed ≤ 3) (hpull : pull ≤ 3) (haf : af ≤ 15) :
    pinType (gpio_init s pin mode type speed pull af) (PINBANK pin) (PINNO pin) = type ∧
      pinSpeed (gpio_init s pin mode type speed pull af) (PINBANK pin) (PINNO pin) = speed ∧
      pinPull (gpio_init s pin mode type speed pull af) (PINBANK pin) (PINNO pin) = pull ∧
      pinAF (gpio_init s pin mode type speed pull af) (PINBANK pin) (PINNO pin) = af ∧
      pinMode (gpio_init s pin mode type speed pull af) (PINBANK pin) (PINNO pin) = mode := by
  refine ⟨?_, ?_, ?_, ?_, ?_⟩
  · unfold pinType
    rw [gpio_init_OTYPER s pin mode type speed pull af hpin, u8_of_lt (by omega)]
    exact field_readback _ 1 type (PINNO pin) 1 rfl (by omega) (by omega)
  · unfold pinSpeed
    rw [gpio_init_OSPEEDR s pin mode type speed pull af hpin, u8_of_lt (by omega)]
    exact field_readback _ 3 speed (2 * PINNO pin) 2 rfl (by omega) (by omega)
  · unfold pinPull
    rw [gpio_init_PUPDR s pin mode type speed pull af hpin, u8_of_lt (by omega)]
    exact field_readback _ 3 pull (2 * PINNO pin) 2 rfl (by omega) (by omega)
  · unfold pinAF
    rw [gpio_init_AFR s pin mode type speed pull af hpin, u8_of_lt (by omega)]
    exact field_readback _ 15 af (4 * (PINNO pin % 8)) 4 rfl (by omega) (by omega)
  · unfold pinMode
    rw [gpio_init_MODER s pin mode type speed pull af hpin, u8_of_lt (by omega)]
    exact field_readback _ 3 mode (2 * PINNO pin) 2 rfl (by omega) (by omega)

/-- Witness of C2 at PA9 configured the way `uart_init` does, from the all-zero
state. -/
theorem C2_gpio_init_readback_witness :
    pinType (gpio_init Hw.zero 9 2 0 2 0 7) (PINBANK 9) (PINNO 9) = 0 ∧
      pinSpeed (gpio_init Hw.zero 9 2 0 2 0 7) (PINBANK 9) (PINNO 9) = 2 ∧
      pinPull (gpio_init Hw.zero 9 2 0 2 0 7) (PINBANK 9) (PINNO 9) = 0 ∧
      pinAF (gpio_init Hw.zero 9 2 0 2 0 7) (PINBANK 9) (PINNO 9) = 7 ∧
      pinMode (gpio_init Hw.zero 9 2 0 2 0 7) (PINBANK 9) (PINNO 9) = 2 :=
  C2_gpio_init_readback Hw.zero 9 2 0 2 0 7 (by decide) (by decide) (by decide) (by decide)
    (by decide) (by decide) (by decide)

theorem other_field (R msk v k w k1 w1 : Nat) (hm : msk = 2 ^ w - 1)
    (hR : R < 4294967296) (h : k1 + w1 ≤ k ∨ (v < 2 ^ w ∧ k + w ≤ k1)) :
    bits (clrsetVal R (u32 (msk <<< k)) (u32 (v <<< k))) k1 w1 = bits R k1 w1 := by
  rcases h with h | ⟨hv, h⟩
  · exact field_below R msk v k w k1 w1 hm hR h
  · exact field_above R msk v k w k1 w1 hm hR hv h

theorem gpio_init_other_pinType (s : Hw) (pin mode type speed pull af m : Nat)
    (hpin : pin < 65536) (h : m < PINNO pin ∨ (type ≤ 1 ∧ PINNO pin < m)) :
    pinType (gpio_init s pin mode type speed pull af) (PINBANK pin) m =
      pinType s (PINBANK pin) m := by
  unfold pinType
  rw [gpio_init_OTYPER s pin mode type speed pull af hpin]
  apply other_field _ 1 _ _ 1 _ _ rfl (s.wf _)
  rcases h with h | ⟨h1, h2⟩
  · left; omega
  · right; rw [u8_of_lt (by omega)]; constructor <;> omega

theorem gpio_init_other_pinSpeed (s : Hw) (pin mode type speed pull af m : Nat)
    (hpin : pin < 65536) (h : m < PINNO pin ∨ (speed ≤ 3 ∧ PINNO pin < m)) :
    pinSpeed (gpio_init s pin mode type speed pull af) (PINBANK pin) m =
      pinSpeed s (PINBANK pin) m := by
  unfold pinSpeed
  rw [gpio_init_OSPEEDR s pin mode type speed pull af hpin]
  apply other_field _ 3 _ _ 2 _ _ rfl (s.wf _)
  rcases h with h | ⟨h1, h2⟩
  · left; omega
  · right; rw [u8_of_lt (by omega)]; constructor <;> omega

theorem gpio_init_other_pinPull (s : Hw) (pin mode type speed pull af m : Nat)
    (hpin : pin < 65536) (h : m < PINNO pin ∨ (pull ≤ 3 ∧ PINNO pin < m)) :
    pinPull (gpio_init s pin mode type speed pull af) (PINBANK pin) m =
      pinPull s (PINBANK pin) m := by
  unfold pinPull
  rw [gpio_init_PUPDR s pin mode type speed pull af hpin]
  apply other_field _ 3 _ _ 2 _ _ rfl (s.wf _)
  rcases h with h | ⟨h1, h2⟩
  · left; omega
  · right; rw [u8_of_lt (by omega)]; constructor <;> omega

theorem gpio_init_other_pinMode (s : Hw) (pin mode type speed pull af m : Nat)
    (hpin : pin < 65536) (h : m < PINNO pin ∨ (mode ≤ 3 ∧ PINNO pin < m)) :
    pinMode (gpio_init s pin mode type speed pull af) (PINBANK pin) m =
      pinMode s (PINBANK pin) m := by
  unfold pinMode
  rw [gpio_init_MODER s pin mode type speed pull af hpin]
  apply other_field _ 3 _ _ 2 _ _ rfl (s.wf _)
  rcases h with h | ⟨h1, h2⟩
  · left; omega
  · right; rw [u8_of_lt (by omega)]; constructor <;> omega

theorem gpio_init_other_pinAF (s : Hw) (pin mode type speed pull af m : Nat)
    (hpin : pin < 65536)
    (h : m < PINNO pin ∨ m / 8 ≠ PINNO pin / 8 ∨ (af ≤ 15 ∧ PINNO pin < m)) :
    pinAF (gpio_init s pin mode type speed pull af) (PINBANK pin) m =
      pinAF s (PINBANK pin) m := by
  unfold pinAF
  by_cases hreg : m / 8 = PINNO pin / 8
  · rw [hreg, gpio_init_AFR s pin mode type speed pull af hpin]
    apply other_field _ 15 _ _ 4 _ _ rfl (s.wf _)
    rcases h with h | h | ⟨h1, h2⟩
    · left; omega
    · exact absurd hreg h
    · right; rw [u8_of_lt (by omega)]; constructor <;> omega
  · rw [gpio_init_AFR_other s pin mode type speed pull af (m / 8) hpin hreg]

/-- C3: write isolation of `gpio_init` for in-range values.  In the pin's
bank every bit of OTYPER, OSPEEDR, PUPDR, MODER, AFR[0] and AFR[1] outside pin
`n`'s own field keeps its value (so do all further words `AFR[j]`), hence the
type, speed, pull, alternate-function and mode fields of every other pin `m`
are the same before and after, and every register of every other GPIO bank is
unchanged. -/
theorem C3_gpio_init_isolation (s : Hw) (pin mode type speed pull af : Nat)
    (hpin : pin < 65536) (_hn : PINNO pin ≤ 15) (hmode : mode ≤ 3) (htype : type ≤ 1)
    (hspeed : speed ≤ 3) (hpull : pull ≤ 3) (haf : af ≤ 15) :
    (∀ i, i ≠ PINNO pin →
      ((gpio_init s pin mode type speed pull af).mem (.GPIO_OTYPER (PINBANK pin))).testBit i =
        (s.mem (.GPIO_OTYPER (PINBANK pin))).testBit i) ∧
    (∀ i, i < 2 * PINNO pin ∨ 2 * PINNO pin + 2 ≤ i →
      ((gpio_init s pin mode type speed pull af).mem (.GPIO_OSPEEDR (PINBANK pin))).testBit i =
        (s.mem (.GPIO_OSPEEDR (PINBANK pin))).testBit i) ∧
    (∀ i, i < 2 * PINNO pin ∨ 2 * PINNO pin + 2 ≤ i →
      ((gpio_init s pin mode type speed pull af).mem (.GPIO_PUPDR (PINBANK pin))).testBit i =
        (s.mem (.GPIO_PUPDR (PINBANK pin))).testBit i) ∧
    (∀ j i, j ≠ PINNO pin / 8 ∨ i < 4 * (PINNO pin % 8) ∨ 4 * (PINNO pin % 8) + 4 ≤ i →
      ((gpio_init s pin mode type speed pull af).mem (.GPIO_AFR (PINBANK pin) j)).testBit i =
        (s.mem (.GPIO_AFR (PINBANK pin) j)).testBit i) ∧
    (∀ i, i < 2 * PINNO pin ∨ 2 * PINNO pin + 2 ≤ i →
      ((gpio_init s pin mode type speed pull af).mem (.GPIO_MODER (PINBANK pin))).testBit i =
        (s.mem (.GPIO_MODER (PINBANK pin))).testBit i) ∧
    (∀ m, m ≠ PINNO pin →
      pinType (gpio_init s pin mode type speed pull af) (PINBANK pin) m =
        pinType s (PINBANK pin) m ∧
      pinSpeed (gpio_init s pin mode type speed pull af) (PINBANK pin) m =
        pinSpeed s (PINBANK pin) m ∧
      pinPull (gpio_init s pin mode type speed pull af) (PINBANK pin) m =
        pinPull s (PINBANK pin) m ∧
      pinAF (gpio_init s pin mode type speed pull af) (PINBANK pin) m =
        pinAF s (PINBANK pin) m ∧
      pinMode (gpio_init s pin mode type speed pull af) (PINBANK pin) m =
        pinMode s (PINBANK pin) m) ∧
    (∀ r b, r.gpioBank = some b → b ≠ PINBANK pin →
      (gpio_init s pin mode type speed pull af).mem r = s.mem r) := by
  refine ⟨?_, ?_, ?_, ?_, ?_, ?_, ?_⟩
  · intro i hi
    rw [gpio_init_OTYPER s pin mode type speed pull af hpin, u8_of_lt (by omega)]
    exact bit_outside _ 1 type (PINNO pin) 1 i rfl (s.wf _) (by omega) (by omega)
  · intro i hi
    rw [gpio_init_OSPEEDR s pin mode type speed pull af hpin, u8_of_lt (by omega)]
    exact bit_outside _ 3 speed (2 * PINNO pin) 2 i rfl (s.wf _) (by omega) hi
  · intro i hi
    rw [gpio_init_PUPDR s pin mode type speed pull af hpin, u8_of_lt (by omega)]
    exact bit_outside _ 3 pull (2 * PINNO pin) 2 i rfl (s.wf _) (by omega) hi
  · intro j i hi
    by_cases hj : j = PINNO pin / 8
    · subst hj
      rw [gpio_init_AFR s pin mode type speed pull af hpin, u8_of_lt (by omega)]
      refine bit_outside _ 15 af (4 * (PINNO pin % 8)) 4 i rfl (s.wf _) (by omega) ?_
      rcases hi with h | h
      · exact absurd rfl h
      · exact h
    · rw [gpio_init_AFR_other s pin mode type speed pull af j hpin hj]
  · intro i hi
    rw [gpio_init_MODER s pin mode type speed pull af hpin, u8_of_lt (by omega)]
    exact bit_outside _ 3 mode (2 * PINNO pin) 2 i rfl (s.wf _) (by omega) hi
  · intro m hm
    have hlt : m < PINNO pin ∨ PINNO pin < m := by omega
    refine ⟨?_, ?_, ?_, ?_, ?_⟩
    · exact gpio_init_other_pinType s pin mode type speed pull af m hpin
        (hlt.imp id fun h => ⟨htype, h⟩)
    · exact gpio_init_other_pinSpeed s pin mode type speed pull af m hpin
        (hlt.imp id fun h => ⟨hspeed, h⟩)
    · exact gpio_init_other_pinPull s pin mode type speed pull af m hpin
        (hlt.imp id fun h => ⟨hpull, h⟩)
    · exact gpio_init_other_pinAF s pin mode type speed pull af m hpin
        (hlt.imp id fun h => Or.inr ⟨haf, h⟩)
    · exact gpio_init_other_pinMode s pin mode type speed pull af m hpin
        (hlt.imp id fun h => ⟨hmode, h⟩)
  · intro r b hr hb
    exact gpio_init_other_bank s pin mode type speed pull af r b hpin hr hb

/-- Witness of C3: PA9 configured from the all-zero state; in particular the
fields of PA10 and the registers of bank D are untouched. -/
theorem C3_gpio_init_isolation_witness :
    (pinType (gpio_init Hw.zero 9 2 0 2 0 7) (PINBANK 9) 10 = pinType Hw.zero (PINBANK 9) 10 ∧
      pinSpeed (gpio_init Hw.zero 9 2 0 2 0 7) (PINBANK 9) 10 = pinSpeed Hw.zero (PINBANK 9) 10 ∧
      pinPull (gpio_init Hw.zero 9 2 0 2 0 7) (PINBANK 9) 10 = pinPull Hw.zero (PINBANK 9) 10 ∧
      pinAF (gpio_init Hw.zero 9 2 0 2 0 7) (PINBANK 9) 10 = pinAF Hw.zero (PINBANK 9) 10 ∧
      pinMode (gpio_init Hw.zero 9 2 0 2 0 7) (PINBANK 9) 10 = pinMode Hw.zero (PINBANK 9) 10) ∧
    (gpio_init Hw.zero 9 2 0 2 0 7).mem (.GPIO_MODER 3) = Hw.zero.mem (.GPIO_MODER 3) :=
  ⟨(C3_gpio_init_isolation Hw.zero 9 2 0 2 0 7 (by decide) (by decide) (by decide) (by decide)
      (by decide) (by decide) (by decide)).2.2.2.2.2.1 10 (by decide),
   (C3_gpio_init_isolation Hw.zero 9 2 0 2 0 7 (by decide) (by decide) (by decide) (by decide)
      (by decide) (by decide) (by decide)).2.2.2.2.2.2 (.GPIO_MODER 3) 3 rfl (by decide)⟩

/-- Counterexample to C4 as stated: from the all-zero state, `gpio_init` on PA0
with the 8-bit value `type = 2` (and on PA0 with `speed = 4`, `af = 16`)
changes the type (speed, alternate-function) field of the other pin PA1 from
0 to 1. -/
theorem C4_counterexample :
    (0 : Nat) < 65536 ∧ PINNO 0 = 0 ∧ (1 : Nat) ≠ PINNO 0 ∧ (2 : Nat) < 256 ∧
      pinType Hw.zero (PINBANK 0) 1 = 0 ∧
      pinType (gpio_init Hw.zero 0 0 2 0 0 0) (PINBANK 0) 1 = 1 ∧
      pinSpeed (gpio_init Hw.zero 0 0 0 4 0 0) (PINBANK 0) 1 = 1 ∧
      pinAF (gpio_init Hw.zero 0 0 0 0 0 16) (PINBANK 0) 1 = 1 := by
  decide

/-- C4 amended: for every pin, every prior state and every value of the
arguments, `gpio_init` leaves a field of another pin `m` of the same bank
unaltered whenever `m` is below the configured pin, or the argument written
to that register is within the field width (`type <= 1`, `speed <= 3`,
`pull <= 3`, `af <= 15`, `mode <= 3`), or, for the alternate function, `m`
lies in the other AFR word. -/
theorem C4_gpio_init_isolation_amended (s : Hw) (pin mode type speed pull af m : Nat)
    (hpin : pin < 65536) (hm : m ≠ PINNO pin) :
    (m < PINNO pin ∨ type ≤ 1 →
      pinType (gpio_init s pin mode type speed pull af) (PINBANK pin) m =
        pinType s (PINBANK pin) m) ∧
    (m < PINNO pin ∨ speed ≤ 3 →
      pinSpeed (gpio_init s pin mode type speed pull af) (PINBANK pin) m =
        pinSpeed s (PINBANK pin) m) ∧
    (m < PINNO pin ∨ pull ≤ 3 →
      pinPull (gpio_init s pin mode type speed pull af) (PINBANK pin) m =
        pinPull s (PINBANK pin) m) ∧
    (m < PINNO pin ∨ m / 8 ≠ PINNO pin / 8 ∨ af ≤ 15 →
      pinAF (gpio_init s pin mode type speed pull af) (PINBANK pin) m =
        pinAF s (PINBANK pin) m) ∧
    (m < PINNO pin ∨ mode ≤ 3 →
      pinMode (gpio_init s pin mode type speed pull af) (PINBANK pin) m =
        pinMode s (PINBANK pin) m) := by
  have hlt : m < PINNO pin ∨ PINNO pin < m := by omega
  refine ⟨?_, ?_, ?_, ?_, ?_⟩
  · intro h
    apply gpio_init_other_pinType s pin mode type speed pull af m hpin
    rcases h with h | h
    · exact Or.inl h
    · exact hlt.imp id fun h2 => ⟨h, h2⟩
  · intro h
    apply gpio_init_other_pinSpeed s pin mode type speed pull af m hpin
    rcases h with h | h
    · exact Or.inl h
    · exact hlt.imp id fun h2 => ⟨h, h2⟩
  · intro h
    apply gpio_init_other_pinPull s pin mode type speed pull af m hpin
    rcases h with h | h
    · exact Or.inl h
    · exact hlt.imp id fun h2 => ⟨h, h2⟩
  · intro h
    apply gpio_init_other_pinAF s pin mode type speed pull af m hpin
    rcases h with h | h | h
    · exact Or.inl h
    · exact Or.inr (Or.inl h)
    · exact hlt.imp id fun h2 => Or.inr ⟨h, h2⟩
  · intro h
    apply gpio_init_other_pinMode s pin mode type speed pull af m hpin
    rcases h with h | h
    · exact Or.inl h
    · exact hlt.imp id fun h2 => ⟨h, h2⟩

/-- Witness of C4 amended: PA9 configured with the out-of-range values
`type = 2` and `speed = 255`; the fields of the lower pin PA3 are unaltered. -/
theorem C4_gpio_init_isolation_amended_witness :
    pinType (gpio_init Hw.zero 9 2 2 255 0 7) (PINBANK 9) 3 = pinType Hw.zero (PINBANK 9) 3 ∧
      pinSpeed (gpio_init Hw.zero 9 2 2 255 0 7) (PINBANK 9) 3 =
        pinSpeed Hw.zero (PINBANK 9) 3 :=
  ⟨(C4_gpio_init_isolation_amended Hw.zero 9 2 2 255 0 7 3 (by decide) (by decide)).1
      (Or.inl (by decide)),
   (C4_gpio_init_isolation_amended Hw.zero 9 2 2 255 0 7 3 (by decide) (by decide)).2.1
      (Or.inl (by decide))⟩

/-! ## Output data: BSRR, ODR and IDR -/

theorem testBit_BIT (n i : Nat) : (BIT n).testBit i = (decide (i < 32) && decide (n = i)) := by
  unfold BIT
  rw [testBit_u32, Nat.one_shiftLeft, Nat.testBit_two_pow]

theorem and_BIT_ne_zero (x n : Nat) (hn : n < 32) : x &&& BIT n ≠ 0 ↔ x.testBit n = true := by
  constructor
  · intro h
    obtain ⟨i, hi⟩ := Nat.ne_zero_implies_bit_true h
    rw [Nat.testBit_and, testBit_BIT] at hi
    simp only [Bool.and_eq_true, decide_eq_true_eq] at hi
    obtain ⟨h1, -, h3⟩ := hi
    rw [h3]
    exact h1
  · intro h h0
    have : (x &&& BIT n).testBit n = true := by
      rw [Nat.testBit_and, testBit_BIT, h]
      simp [hn]
    rw [h0] at this
    simp at this

theorem wordOfBits_testBit (f : Nat → Bool) (k i : Nat) :
    (wordOfBits f k).testBit i = (decide (i < k) && f i) := by
  induction k with
  | zero => simp [wordOfBits]
  | succ k ih =>
    unfold wordOfBits
    rw [Nat.testBit_or, ih]
    by_cases hf : f k
    · rw [if_pos hf, Nat.one_shiftLeft, Nat.testBit_two_pow]
      by_cases hik : k = i
      · subst hik
        simp [hf]
      · have : (i < k + 1) = (i < k) := by
          apply propext
          omega
        simp [hik, this]
    · rw [if_neg hf]
      by_cases hik : k = i
      · subst hik
        simp [hf]
      · have : (i < k + 1) = (i < k) := by
          apply propext
          omega
        simp [this]

theorem pinLevel_of_output (s : Hw) (b i : Nat) (h : pinMode s b i = GPIO_MODE_OUTPUT) :
    s.pinLevel b i = (s.mem (.GPIO_ODR b)).testBit i := by
  unfold pinMode bits at h
  unfold Hw.pinLevel
  rw [show (3 : Nat) = 2 ^ 2 - 1 by norm_num, Nat.and_pow_two_sub_one_eq_mod, if_pos h]

theorem gpio_read_eq (s : Hw) (pin : Nat) (hpin : pin < 65536) (hn : PINNO pin ≤ 15) :
    gpio_read s pin = if s.pinLevel (PINBANK pin) (PINNO pin) then 1 else 0 := by
  unfold gpio_read
  simp only [u16_of_lt hpin, gpio_bank, GPIO, Hw.read]
  have h := and_BIT_ne_zero (wordOfBits (s.pinLevel (PINBANK pin)) 16) (PINNO pin) (by omega)
  rw [wordOfBits_testBit] at h
  have h16 : PINNO pin < 16 := by omega
  simp only [h16, decide_True, Bool.true_and] at h
  by_cases hl : s.pinLevel (PINBANK pin) (PINNO pin) = true
  · rw [if_pos (h.2 hl), if_pos hl]
  · rw [if_neg (fun hc => hl (h.1 hc)), if_neg hl]

theorem gpio_read_congr (s t : Hw) (pin : Nat) (h : s.mem = t.mem) :
    gpio_read s pin = gpio_read t pin := by
  have hl : ∀ b, s.pinLevel b = t.pinLevel b := by
    intro b
    funext i
    unfold Hw.pinLevel
    rw [h]
  unfold gpio_read
  simp only [Hw.read, hl]

theorem write_BSRR_mem (s : Hw) (b v : Nat) :
    (s.write (.GPIO_BSRR b) v).mem =
      Function.update s.mem (.GPIO_ODR b)
        (u32 ((s.mem (.GPIO_ODR b) &&& not32 (u32 v >>> 16)) ||| (u32 v &&& 65535))) := rfl

theorem bsrr_testBit (O v i : Nat) (hO : O < 4294967296) :
    (u32 ((O &&& not32 (u32 v >>> 16)) ||| (u32 v &&& 65535))).testBit i =
      ((O.testBit i && !(u32 v).testBit (16 + i)) ||
        ((u32 v).testBit i && decide (i < 16))) := by
  have hO32 : ¬ i < 32 → O.testBit i = false := fun h32 =>
    testBit_of_lt_two_pow (w := 32) (by simpa using hO) (by omega)
  rw [testBit_u32, Nat.testBit_or, Nat.testBit_and, testBit_not32, Nat.testBit_and,
    show (65535 : Nat) = 2 ^ 16 - 1 by norm_num, Nat.testBit_two_pow_sub_one,
    Nat.testBit_shiftRight]
  by_cases h32 : i < 32
  · simp [h32]
  · have h16 : ¬ i < 16 := by omega
    simp [h32, h16, hO32 h32]

theorem testBit_BIT_shift (n sh j : Nat) (hn : n ≤ 15) (hsh : sh ≤ 16) :
    (u32 (u32 (BIT n <<< sh))).testBit j = decide (j = n + sh) := by
  rw [u32_u32, testBit_u32, Nat.testBit_shiftLeft, testBit_BIT]
  by_cases h : j = n + sh
  · subst h
    have h1 : n + sh < 32 := by omega
    have h2 : n < 32 := by omega
    simp [h1, h2]
  · by_cases h2 : sh ≤ j
    · have h3 : ¬ (n = j - sh) := by omega
      simp [h, h3]
    · simp [h, h2]

theorem gpio_write_ODR_testBit (s : Hw) (pin : Nat) (val : Bool) (i : Nat)
    (hpin : pin < 65536) (hn : PINNO pin ≤ 15) :
    ((gpio_write s pin val).mem (.GPIO_ODR (PINBANK pin))).testBit i =
      if i = PINNO pin then val else (s.mem (.GPIO_ODR (PINBANK pin))).testBit i := by
  unfold gpio_write
  simp only [u16_of_lt hpin, gpio_bank, GPIO, write_BSRR_mem, Function.update_same]
  rw [bsrr_testBit _ _ _ (s.wf _)]
  generalize PINNO pin = n at hn ⊢
  generalize s.mem (.GPIO_ODR (PINBANK pin)) = O
  cases val
  · simp only [Bool.false_eq_true, if_false]
    rw [testBit_BIT_shift _ _ _ hn (le_refl _), testBit_BIT_shift _ _ _ hn (le_refl _)]
    by_cases h : i = n
    · have h1 : 16 + i = n + 16 := by omega
      have h2 : ¬ i = n + 16 := by omega
      simp [h1, h2, h]
      intro _
      omega
    · have h1 : ¬ 16 + i = n + 16 := by omega
      by_cases h16 : i < 16
      · have h2 : ¬ i = n + 16 := by omega
        simp [h, h1, h2]
      · simp [h, h1, h16]
  · simp only [if_true]
    rw [testBit_BIT_shift _ _ _ hn (Nat.zero_le _), testBit_BIT_shift _ _ _ hn (Nat.zero_le _)]
    by_cases h : i = n
    · have h1 : ¬ 16 + i = n + 0 := by omega
      have h2 : i < 16 := by omega
      have h3 : i = n + 0 := by omega
      simp [h1, h2, h3, h]
      right
      omega
    · have h1 : ¬ 16 + i = n + 0 := by omega
      have h2 : ¬ i = n + 0 := by omega
      simp [h, h1, h2]
      intro _
      omega

theorem gpio_write_mem_other (s : Hw) (pin : Nat) (val : Bool) (r : Reg)
    (hr : r ≠ .GPIO_ODR (gpio_bank pin)) :
    (gpio_write s pin val).mem r = s.mem r := by
  unfold gpio_write
  simp only [write_BSRR_mem, gpio_bank, u16_u16] at hr ⊢
  rw [Function.update_noteq hr]

theorem gpio_read_after_write (s : Hw) (pin : Nat) (val : Bool)
    (hpin : pin < 65536) (hn : PINNO pin ≤ 15)
    (hmode : pinMode s (PINBANK pin) (PINNO pin) = GPIO_MODE_OUTPUT) :
    gpio_read (gpio_write s pin val) pin = if val then 1 else 0 := by
  have hm : pinMode (gpio_write s pin val) (PINBANK pin) (PINNO pin) = GPIO_MODE_OUTPUT := by
    unfold pinMode at hmode ⊢
    rw [gpio_write_mem_other s pin val _ (by simp)]
    exact hmode
  rw [gpio_read_eq _ pin hpin hn, pinLevel_of_output _ _ _ hm,
    gpio_write_ODR_testBit s pin val _ hpin hn, if_pos rfl]

theorem gpio_output_pinMode (s : Hw) (pin : Nat) (hpin : pin < 65536) (hn : PINNO pin ≤ 15) :
    pinMode (gpio_output s pin) (PINBANK pin) (PINNO pin) = GPIO_MODE_OUTPUT := by
  unfold gpio_output pinMode
  rw [gpio_init_MODER _ _ _ _ _ _ _ hpin, u8_of_lt (by decide)]
  exact field_readback _ 3 GPIO_MODE_OUTPUT (2 * PINNO pin) 2 rfl (by decide) (by omega)

/-- C5: a pin with number in 0..15 configured by `gpio_output`, from any
earlier state: after `gpio_write (pin, true)`, `gpio_read` returns 1; after
`gpio_write (pin, false)`, also when it follows the write of true, `gpio_read`
returns 0. -/
theorem C5_write_then_read (s : Hw) (pin : Nat) (hpin : pin < 65536) (hn : PINNO pin ≤ 15) :
    gpio_read (gpio_write (gpio_output s pin) pin true) pin = 1 ∧
      gpio_read (gpio_write (gpio_output s pin) pin false) pin = 0 ∧
      gpio_read (gpio_write (gpio_write (gpio_output s pin) pin true) pin false) pin = 0 := by
  have hm := gpio_output_pinMode s pin hpin hn
  refine ⟨?_, ?_, ?_⟩
  · exact gpio_read_after_write _ pin true hpin hn hm
  · exact gpio_read_after_write _ pin false hpin hn hm
  · apply gpio_read_after_write _ pin false hpin hn
    unfold pinMode at hm ⊢
    rw [gpio_write_mem_other _ pin true _ (by simp)]
    exact hm

/-- Witness of C5 at PB10 (pin value 0x10A) from the all-zero state. -/
theorem C5_write_then_read_witness :
    gpio_read (gpio_write (gpio_output Hw.zero 266) 266 true) 266 = 1 ∧
      gpio_read (gpio_write (gpio_output Hw.zero 266) 266 false) 266 = 0 ∧
      gpio_read (gpio_write (gpio_write (gpio_output Hw.zero 266) 266 true) 266 false) 266 = 0 :=
  C5_write_then_read Hw.zero 266 (by decide) (by decide)

theorem gpio_toggle_eq_write (s : Hw) (pin : Nat) (hpin : pin < 65536) (hn : PINNO pin ≤ 15) :
    gpio_toggle s pin =
      gpio_write s pin (!(s.mem (.GPIO_ODR (PINBANK pin))).testBit (PINNO pin)) := by
  unfold gpio_toggle gpio_write
  simp only [u16_of_lt hpin, gpio_bank, GPIO, Hw.read]
  have h := and_BIT_ne_zero (s.mem (.GPIO_ODR (PINBANK pin))) (PINNO pin) (by omega)
  by_cases hb : (s.mem (.GPIO_ODR (PINBANK pin))).testBit (PINNO pin) = true
  · rw [if_pos (h.2 hb), hb]
    rfl
  · rw [if_neg (fun hc => hb (h.1 hc))]
    simp only [Bool.not_eq_true] at hb
    rw [hb]
    rfl

theorem gpio_toggle_ODR_testBit (s : Hw) (pin i : Nat) (hpin : pin < 65536)
    (hn : PINNO pin ≤ 15) :
    ((gpio_toggle s pin).mem (.GPIO_ODR (PINBANK pin))).testBit i =
      if i = PINNO pin then !(s.mem (.GPIO_ODR (PINBANK pin))).testBit (PINNO pin)
      else (s.mem (.GPIO_ODR (PINBANK pin))).testBit i := by
  rw [gpio_toggle_eq_write s pin hpin hn, gpio_write_ODR_testBit s pin _ i hpin hn]

theorem gpio_toggle_mem_other (s : Hw) (pin : Nat) (r : Reg)
    (hr : r ≠ .GPIO_ODR (gpio_bank pin)) :
    (gpio_toggle s pin).mem r = s.mem r := by
  unfold gpio_toggle
  simp only [write_BSRR_mem, gpio_bank, u16_u16] at hr ⊢
  rw [Function.update_noteq hr]

theorem gpio_toggle_twice_mem (s : Hw) (pin : Nat) (hpin : pin < 65536) (hn : PINNO pin ≤ 15) :
    (gpio_toggle (gpio_toggle s pin) pin).mem = s.mem := by
  funext r
  by_cases hr : r = .GPIO_ODR (gpio_bank pin)
  · subst hr
    have hb : gpio_bank pin = PINBANK pin := by simp [gpio_bank, GPIO, u16_of_lt hpin]
    rw [hb]
    apply Nat.eq_of_testBit_eq
    intro i
    rw [gpio_toggle_ODR_testBit _ pin i hpin hn, gpio_toggle_ODR_testBit s pin i hpin hn,
      gpio_toggle_ODR_testBit s pin (PINNO pin) hpin hn]
    by_cases hi : i = PINNO pin
    · simp [hi]
    · simp [hi]
  · rw [gpio_toggle_mem_other _ pin r hr, gpio_toggle_mem_other s pin r hr]

/-- C6: for a pin with number `n` in 0..15 and any state, one `gpio_toggle`
inverts bit `n` of ODR; `gpio_toggle` applied twice leaves every register, ODR
in particular, with its original content, hence `gpio_read` of any pin gives
its original value. -/
theorem C6_toggle_twice (s : Hw) (pin : Nat) (hpin : pin < 65536) (hn : PINNO pin ≤ 15) :
    ((gpio_toggle s pin).mem (.GPIO_ODR (PINBANK pin))).testBit (PINNO pin) =
        (!(s.mem (.GPIO_ODR (PINBANK pin))).testBit (PINNO pin)) ∧
      (gpio_toggle (gpio_toggle s pin) pin).mem (.GPIO_ODR (PINBANK pin)) =
        s.mem (.GPIO_ODR (PINBANK pin)) ∧
      (gpio_toggle (gpio_toggle s pin) pin).mem = s.mem ∧
      ∀ q, gpio_read (gpio_toggle (gpio_toggle s pin) pin) q = gpio_read s q := by
  have h2 := gpio_toggle_twice_mem s pin hpin hn
  refine ⟨?_, ?_, h2, ?_⟩
  · rw [gpio_toggle_ODR_testBit s pin _ hpin hn, if_pos rfl]
  · rw [h2]
  · intro q
    exact gpio_read_congr _ _ q h2

/-- Witness of C6 at PB10 (pin value 0x10A) from the all-zero state. -/
theorem C6_toggle_twice_witness :
    ((gpio_toggle Hw.zero 266).mem (.GPIO_ODR (PINBANK 266))).testBit (PINNO 266) =
        (!(Hw.zero.mem (.GPIO_ODR (PINBANK 266))).testBit (PINNO 266)) ∧
      (gpio_toggle (gpio_toggle Hw.zero 266) 266).mem (.GPIO_ODR (PINBANK 266)) =
        Hw.zero.mem (.GPIO_ODR (PINBANK 266)) ∧
      (gpio_toggle (gpio_toggle Hw.zero 266) 266).mem = Hw.zero.mem ∧
      ∀ q, gpio_read (gpio_toggle (gpio_toggle Hw.zero 266) 266) q = gpio_read Hw.zero q :=
  C6_toggle_twice Hw.zero 266 (by decide) (by decide)

/-! ## UART initialisation -/

theorem write_mem (s : Hw) (r : Reg) (v : Nat) (h : ∀ b, r ≠ .GPIO_BSRR b) :
    (s.write r v).mem = Function.update s.mem r (u32 v) := by
  cases r <;> first | rfl | exact absurd rfl (h _)

theorem write_log (s : Hw) (r : Reg) (v : Nat) : (s.write r v).log = s.log ++ [(r, u32 v)] := by
  cases r <;> rfl

theorem uart_init_some (hdr : DeviceHeader) (s t : Hw) (uart : USART_Ptr)
    (baud freq tx rx : Nat) (h : uart_select hdr s uart = some (t, freq, tx, rx)) :
    (uart_init hdr s uart baud).1 = true ∧
    (∀ r, r ≠ .USART_CR1 uart → r ≠ .USART_BRR uart →
      (uart_init hdr s uart baud).2.mem r =
        (gpio_init (gpio_init t tx GPIO_MODE_AF GPIO_OTYPE_PUSH_PULL GPIO_SPEED_HIGH 0 7)
          rx GPIO_MODE_AF GPIO_OTYPE_PUSH_PULL GPIO_SPEED_HIGH 0 7).mem r) ∧
    (uart_init hdr s uart baud).2.mem (.USART_BRR uart) = u32 (baud_divisor freq (u32 baud)) ∧
    (uart_init hdr s uart baud).2.mem (.USART_CR1 uart) =
      u32 (u32 (hdr.USART_CR1_RE ||| hdr.USART_CR1_TE) ||| hdr.USART_CR1_UE) := by
  simp only [uart_init, h]
  refine ⟨trivial, ?_, ?_, ?_⟩
  · intro r h1 h2
    simp only [Hw.read]
    rw [write_mem _ _ _ (by simp), write_mem _ _ _ (by simp), write_mem _ _ _ (by simp),
      write_mem _ _ _ (by simp)]
    simp [Function.update_apply, h1, h2]
  · simp only [Hw.read]
    rw [write_mem _ _ _ (by simp), write_mem _ _ _ (by simp), write_mem _ _ _ (by simp),
      write_mem _ _ _ (by simp)]
    simp [Function.update_apply]
  · simp only [Hw.read]
    rw [write_mem _ _ _ (by simp), write_mem _ _ _ (by simp), write_mem _ _ _ (by simp),
      write_mem _ _ _ (by simp)]
    simp [Function.update_apply]

/-- C7: `uart_init` returns false exactly when `uart` is none of USART1,
USART2 and USART3, and then the state it leaves is the state it was called
in: no register has changed and no store has been executed. -/
theorem C7_uart_init_failure (hdr : DeviceHeader) (s : Hw) (uart : USART_Ptr) (baud : Nat) :
    ((uart_init hdr s uart baud).1 = false ↔
        (uart ≠ .USART1 ∧ uart ≠ .USART2 ∧ uart ≠ .USART3)) ∧
      ((uart ≠ .USART1 ∧ uart ≠ .USART2 ∧ uart ≠ .USART3) →
        (uart_init hdr s uart baud).2 = s ∧
        (uart_init hdr s uart baud).2.mem = s.mem ∧
        (uart_init hdr s uart baud).2.log = s.log) := by
  cases uart <;> simp [uart_init, uart_select]

theorem APB2_FREQUENCY_eq : APB2_FREQUENCY = 125000000 := by decide
theorem APB1_FREQUENCY_eq : APB1_FREQUENCY = 125000000 := by decide

theorem brr_value (freq baud : Nat) (hf : freq < 4294967296) (hb : baud < 4294967296) :
    u32 (baud_divisor (u32 freq) (u32 baud)) = freq / baud := by
  unfold baud_divisor
  rw [u32_u32, u32_u32, u32_of_lt hf, u32_of_lt hb]
  exact u32_of_lt (lt_of_le_of_lt (Nat.div_le_self _ _) hf)

theorem uart_init_log_BRR (hdr : DeviceHeader) (s t : Hw) (uart : USART_Ptr)
    (baud freq tx rx : Nat) (h : uart_select hdr s uart = some (t, freq, tx, rx)) :
    (Reg.USART_BRR uart, u32 (baud_divisor freq (u32 baud))) ∈
      (uart_init hdr s uart baud).2.log := by
  simp only [uart_init, h, write_log]
  simp

/-- C8: for USART1, USART2 and USART3 and every baud rate `baud > 0` (an
`unsigned long`), `uart_init` stores into BRR the integer quotient of the bus
frequency by `baud`, the bus frequency being `APB2_FREQUENCY` for USART1 and
`APB1_FREQUENCY` for USART2 and USART3, and BRR holds it on return; the
quotient drops the remainder, and for 100,000,000 and 115,200 it is 868. -/
theorem C8_uart_baud_divisor (hdr : DeviceHeader) (s : Hw) (baud : Nat) (hpos : 0 < baud)
    (hb : baud < 4294967296) :
    ((uart_init hdr s .USART1 baud).2.mem (.USART_BRR .USART1) = APB2_FREQUENCY / baud ∧
      (Reg.USART_BRR .USART1, APB2_FREQUENCY / baud) ∈ (uart_init hdr s .USART1 baud).2.log) ∧
    ((uart_init hdr s .USART2 baud).2.mem (.USART_BRR .USART2) = APB1_FREQUENCY / baud ∧
      (Reg.USART_BRR .USART2, APB1_FREQUENCY / baud) ∈ (uart_init hdr s .USART2 baud).2.log) ∧
    ((uart_init hdr s .USART3 baud).2.mem (.USART_BRR .USART3) = APB1_FREQUENCY / baud ∧
      (Reg.USART_BRR .USART3, APB1_FREQUENCY / baud) ∈ (uart_init hdr s .USART3 baud).2.log) ∧
    APB2_FREQUENCY / baud * baud ≤ APB2_FREQUENCY ∧
    APB2_FREQUENCY < (APB2_FREQUENCY / baud + 1) * baud ∧
    APB1_FREQUENCY / baud * baud ≤ APB1_FREQUENCY ∧
    APB1_FREQUENCY < (APB1_FREQUENCY / baud + 1) * baud ∧
    baud_divisor 100000000 115200 = 868 := by
  have h2 : APB2_FREQUENCY < 4294967296 := by decide
  have h1 : APB1_FREQUENCY < 4294967296 := by decide
  refine ⟨⟨?_, ?_⟩, ⟨?_, ?_⟩, ⟨?_, ?_⟩, Nat.div_mul_le_self _ _,
    Nat.lt_div_mul_add hpos |>.trans_eq (by ring), Nat.div_mul_le_self _ _,
    Nat.lt_div_mul_add hpos |>.trans_eq (by ring), by decide⟩
  · rw [(uart_init_some hdr s _ .USART1 baud _ _ _ rfl).2.2.1]
    exact brr_value _ _ h2 hb
  · have h := uart_init_log_BRR hdr s _ .USART1 baud _ _ _ rfl
    rwa [brr_value _ _ h2 hb] at h
  · rw [(uart_init_some hdr s _ .USART2 baud _ _ _ rfl).2.2.1]
    exact brr_value _ _ h1 hb
  · have h := uart_init_log_BRR hdr s _ .USART2 baud _ _ _ rfl
    rwa [brr_value _ _ h1 hb] at h
  · rw [(uart_init_some hdr s _ .USART3 baud _ _ _ rfl).2.2.1]
    exact brr_value _ _ h1 hb
  · have h := uart_init_log_BRR hdr s _ .USART3 baud _ _ _ rfl
    rwa [brr_value _ _ h1 hb] at h

/-- Witness of C8: USART3 at 115200 baud from the all-zero state; with the bus at
125 MHz the divisor is 1085. -/
theorem C8_uart_baud_divisor_witness :
    (uart_init stm32h563 Hw.zero .USART3 115200).2.mem (.USART_BRR .USART3) =
        APB1_FREQUENCY / 115200 ∧
      baud_divisor 100000000 115200 = 868 :=
  ⟨(C8_uart_baud_divisor stm32h563 Hw.zero 115200 (by decide) (by decide)).2.2.1.1,
   (C8_uart_baud_divisor stm32h563 Hw.zero 115200 (by decide) (by decide)).2.2.2.2.2.2.2⟩

/-- C9: for all 32-bit words `W0 = UUID[0]`, `W1 = UUID[1]`, `W2 = UUID[2]`,
the macro yields the six values `[2, W0 & 0xFF, (W0 >> 10) & 0xFF,
(W0 >> 19) & 0xFF, W1 & 0xFF, W2 & 0xFF]`; every element is at most 255, and
the first has bit 1 set and bit 0 clear. -/
theorem C9_mac_bytes (UUID : Nat → Nat) (hW : ∀ i, i < 3 → UUID i < 4294967296) :
    GENERATE_LOCALLY_ADMINISTERED_MAC UUID =
        [2, UUID 0 &&& 255, (UUID 0 >>> 10) &&& 255, (UUID 0 >>> 19) &&& 255,
          UUID 1 &&& 255, UUID 2 &&& 255] ∧
      (GENERATE_LOCALLY_ADMINISTERED_MAC UUID).length = 6 ∧
      (∀ x ∈ GENERATE_LOCALLY_ADMINISTERED_MAC UUID, x ≤ 255) ∧
      ((GENERATE_LOCALLY_ADMINISTERED_MAC UUID).headD 0).testBit 1 = true ∧
      ((GENERATE_LOCALLY_ADMINISTERED_MAC UUID).headD 0).testBit 0 = false := by
  refine ⟨?_, rfl, ?_, ?_, ?_⟩
  · unfold GENERATE_LOCALLY_ADMINISTERED_MAC
    rw [u32_of_lt (hW 0 (by decide)), u32_of_lt (hW 1 (by decide)),
      u32_of_lt (hW 2 (by decide))]
  · intro x hx
    unfold GENERATE_LOCALLY_ADMINISTERED_MAC at hx
    simp only [List.mem_cons, List.mem_singleton, List.not_mem_nil, or_false] at hx
    rcases hx with h | h | h | h | h | h <;> subst h
    · decide
    all_goals exact Nat.and_le_right
  · show Nat.testBit 2 1 = true
    decide
  · show Nat.testBit 2 0 = false
    decide

/-- Witness of C9 at the identifier words 0x12345678, 0xABCDEF01, 0xFFFFFFFF:
the address is 02:78:15:46:01:FF. -/
theorem C9_mac_bytes_witness :
    GENERATE_LOCALLY_ADMINISTERED_MAC (fun i => [305419896, 2882400001, 4294967295].getD i 0) =
      [2, 120, 21, 70, 1, 255] :=
  (C9_mac_bytes (fun i => [305419896, 2882400001, 4294967295].getD i 0)
    (by decide)).1

theorem gpio_init_pinConfig_self (s : Hw) (pin mode type speed pull af : Nat)
    (hpin : pin < 65536) (hn : PINNO pin ≤ 15) (hmode : mode ≤ 3) (htype : type ≤ 1)
    (hspeed : speed ≤ 3) (hpull : pull ≤ 3) (haf : af ≤ 15) :
    pinConfig (gpio_init s pin mode type speed pull af) pin = (mode, type, speed, pull, af) := by
  unfold pinConfig pinMode pinType pinSpeed pinPull pinAF
  rw [gpio_init_OTYPER s pin mode type speed pull af hpin,
    gpio_init_OSPEEDR s pin mode type speed pull af hpin,
    gpio_init_PUPDR s pin mode type speed pull af hpin,
    gpio_init_AFR s pin mode type speed pull af hpin,
    gpio_init_MODER s pin mode type speed pull af hpin,
    u8_of_lt (show mode < 256 by omega), u8_of_lt (show type < 256 by omega),
    u8_of_lt (show speed < 256 by omega), u8_of_lt (show pull < 256 by omega),
    u8_of_lt (show af < 256 by omega),
    field_readback _ 1 type (PINNO pin) 1 rfl (by omega) (by omega),
    field_readback _ 3 speed (2 * PINNO pin) 2 rfl (by omega) (by omega),
    field_readback _ 3 pull (2 * PINNO pin) 2 rfl (by omega) (by omega),
    field_readback _ 15 af (4 * (PINNO pin % 8)) 4 rfl (by omega) (by omega),
    field_readback _ 3 mode (2 * PINNO pin) 2 rfl (by omega) (by omega)]

theorem gpio_init_pinConfig_below (s : Hw) (pin mode type speed pull af q : Nat)
    (hpin : pin < 65536) (hb : PINBANK q = PINBANK pin) (hq : PINNO q < PINNO pin) :
    pinConfig (gpio_init s pin mode type speed pull af) q = pinConfig s q := by
  unfold pinConfig
  rw [hb, gpio_init_other_pinMode s pin mode type speed pull af _ hpin (Or.inl hq),
    gpio_init_other_pinType s pin mode type speed pull af _ hpin (Or.inl hq),
    gpio_init_other_pinSpeed s pin mode type speed pull af _ hpin (Or.inl hq),
    gpio_init_other_pinPull s pin mode type speed pull af _ hpin (Or.inl hq),
    gpio_init_other_pinAF s pin mode type speed pull af _ hpin (Or.inl hq)]

theorem pinConfig_congr (s t : Hw) (pin : Nat)
    (h : ∀ r b, r.gpioBank = some b → s.mem r = t.mem r) :
    pinConfig s pin = pinConfig t pin := by
  unfold pinConfig pinMode pinType pinSpeed pinPull pinAF
  rw [h (.GPIO_MODER _) _ rfl, h (.GPIO_OTYPER _) _ rfl, h (.GPIO_OSPEEDR _) _ rfl,
    h (.GPIO_PUPDR _) _ rfl, h (.GPIO_AFR _ _) _ rfl]

theorem gpio_init_mem_rcc (s : Hw) (pin mode type speed pull af : Nat) (r : Reg)
    (hr : r.gpioBank = none) (h2 : r ≠ .RCC_AHB2ENR) :
    (gpio_init s pin mode type speed pull af).mem r = s.mem r := by
  rw [gpio_init_mem]
  cases r <;> simp_all [Reg.gpioBank]

theorem or_and_self_u32 (x m : Nat) (hm : m < 4294967296) : u32 (x ||| m) &&& m = m := by
  apply Nat.eq_of_testBit_eq
  intro i
  rw [Nat.testBit_and, testBit_u32, Nat.testBit_or]
  by_cases h : m.testBit i = true
  · have h32 : i < 32 := by
      by_contra hc
      have := testBit_of_lt_two_pow (w := 32) (v := m) (by simpa using hm)
        (Nat.le_of_not_lt hc)
      rw [this] at h
      exact Bool.false_ne_true h
    simp [h, h32]
  · simp only [Bool.not_eq_true] at h
    simp [h]

theorem cr1_value (hdr : DeviceHeader) :
    u32 (u32 (hdr.USART_CR1_RE ||| hdr.USART_CR1_TE) ||| hdr.USART_CR1_UE) =
      hdr.USART_CR1_RE ||| hdr.USART_CR1_TE ||| hdr.USART_CR1_UE := by
  obtain ⟨-, -, -, hUE, hRE, hTE⟩ := hdr.fits
  have e : (4294967296 : Nat) = 2 ^ 32 := by norm_num
  rw [e] at hUE hRE hTE
  have h1 : hdr.USART_CR1_RE ||| hdr.USART_CR1_TE < 2 ^ 32 := Nat.or_lt_two_pow hRE hTE
  have h2 : hdr.USART_CR1_RE ||| hdr.USART_CR1_TE ||| hdr.USART_CR1_UE < 2 ^ 32 :=
    Nat.or_lt_two_pow h1 hUE
  rw [u32_of_lt (x := hdr.USART_CR1_RE ||| hdr.USART_CR1_TE) (by rw [e]; exact h1),
    u32_of_lt (by rw [e]; exact h2)]

theorem uart_init_pins (hdr : DeviceHeader) (s t : Hw) (uart : USART_Ptr)
    (baud freq tx rx : Nat) (h : uart_select hdr s uart = some (t, freq, tx, rx))
    (htx : tx < 65536) (hrx : rx < 65536) (hb : PINBANK tx = PINBANK rx)
    (hlt : PINNO tx < PINNO rx) (hn : PINNO rx ≤ 15) :
    pinConfig (uart_init hdr s uart baud).2 tx =
        (GPIO_MODE_AF, GPIO_OTYPE_PUSH_PULL, GPIO_SPEED_HIGH, GPIO_PULL_NONE, 7) ∧
      pinConfig (uart_init hdr s uart baud).2 rx =
        (GPIO_MODE_AF, GPIO_OTYPE_PUSH_PULL, GPIO_SPEED_HIGH, GPIO_PULL_NONE, 7) := by
  have hmem := (uart_init_some hdr s t uart baud freq tx rx h).2.1
  have hc : ∀ pin, pinConfig (uart_init hdr s uart baud).2 pin =
      pinConfig (gpio_init (gpio_init t tx GPIO_MODE_AF GPIO_OTYPE_PUSH_PULL GPIO_SPEED_HIGH 0 7)
        rx GPIO_MODE_AF GPIO_OTYPE_PUSH_PULL GPIO_SPEED_HIGH 0 7) pin := by
    intro pin
    apply pinConfig_congr
    intro r b hr
    apply hmem r
    · intro hc
      rw [hc] at hr
      exact Option.noConfusion hr
    · intro hc
      rw [hc] at hr
      exact Option.noConfusion hr
  constructor
  · rw [hc, gpio_init_pinConfig_below _ rx _ _ _ _ _ tx hrx hb hlt]
    exact gpio_init_pinConfig_self t tx _ _ _ _ _ htx (by omega) (by decide) (by decide)
      (by decide) (by decide) (by decide)
  · rw [hc]
    exact gpio_init_pinConfig_self _ rx _ _ _ _ _ hrx hn (by decide) (by decide)
      (by decide) (by decide) (by decide)

theorem uart_init_rcc (hdr : DeviceHeader) (s t : Hw) (uart : USART_Ptr)
    (baud freq tx rx : Nat) (h : uart_select hdr s uart = some (t, freq, tx, rx)) (r : Reg)
    (hr : r.gpioBank = none) (h2 : r ≠ .RCC_AHB2ENR) (h3 : r ≠ .USART_CR1 uart)
    (h4 : r ≠ .USART_BRR uart) :
    (uart_init hdr s uart baud).2.mem r = t.mem r := by
  rw [(uart_init_some hdr s t uart baud freq tx rx h).2.1 r h3 h4,
    gpio_init_mem_rcc _ _ _ _ _ _ _ r hr h2, gpio_init_mem_rcc _ _ _ _ _ _ _ r hr h2]

/-- C10: for USART1, USART2 and USART3 and every baud rate `baud > 0`,
`uart_init` returns true and leaves: the clock-enable bit of the instance set
(USART1EN in APB2ENR, USART2EN or USART3EN in APB1LENR); both pins (PA9/PA10,
PA2/PA3, PD8/PD9) with mode = alternate function, type = push-pull,
speed = high, pull = none and alternate function 7, at the same time; and CR1
equal to `USART_CR1_RE | USART_CR1_TE | USART_CR1_UE`. -/
theorem C10_uart_init_success (hdr : DeviceHeader) (s : Hw) (baud : Nat) (_hpos : 0 < baud) :
    ((uart_init hdr s .USART1 baud).1 = true ∧
      (uart_init hdr s .USART1 baud).2.mem .RCC_APB2ENR &&& hdr.RCC_APB2ENR_USART1EN =
        hdr.RCC_APB2ENR_USART1EN ∧
      pinConfig (uart_init hdr s .USART1 baud).2 (PIN 'A'.toNat 9) =
        (GPIO_MODE_AF, GPIO_OTYPE_PUSH_PULL, GPIO_SPEED_HIGH, GPIO_PULL_NONE, 7) ∧
      pinConfig (uart_init hdr s .USART1 baud).2 (PIN 'A'.toNat 10) =
        (GPIO_MODE_AF, GPIO_OTYPE_PUSH_PULL, GPIO_SPEED_HIGH, GPIO_PULL_NONE, 7) ∧
      (uart_init hdr s .USART1 baud).2.mem (.USART_CR1 .USART1) =
        hdr.USART_CR1_RE ||| hdr.USART_CR1_TE ||| hdr.USART_CR1_UE) ∧
    ((uart_init hdr s .USART2 baud).1 = true ∧
      (uart_init hdr s .USART2 baud).2.mem .RCC_APB1LENR &&& hdr.RCC_APB1LENR_USART2EN =
        hdr.RCC_APB1LENR_USART2EN ∧
      pinConfig (uart_init hdr s .USART2 baud).2 (PIN 'A'.toNat 2) =
        (GPIO_MODE_AF, GPIO_OTYPE_PUSH_PULL, GPIO_SPEED_HIGH, GPIO_PULL_NONE, 7) ∧
      pinConfig (uart_init hdr s .USART2 baud).2 (PIN 'A'.toNat 3) =
        (GPIO_MODE_AF, GPIO_OTYPE_PUSH_PULL, GPIO_SPEED_HIGH, GPIO_PULL_NONE, 7) ∧
      (uart_init hdr s .USART2 baud).2.mem (.USART_CR1 .USART2) =
        hdr.USART_CR1_RE ||| hdr.USART_CR1_TE ||| hdr.USART_CR1_UE) ∧
    ((uart_init hdr s .USART3 baud).1 = true ∧
      (uart_init hdr s .USART3 baud).2.mem .RCC_APB1LENR &&& hdr.RCC_APB1LENR_USART3EN =
        hdr.RCC_APB1LENR_USART3EN ∧
      pinConfig (uart_init hdr s .USART3 baud).2 (PIN 'D'.toNat 8) =
        (GPIO_MODE_AF, GPIO_OTYPE_PUSH_PULL, GPIO_SPEED_HIGH, GPIO_PULL_NONE, 7) ∧
      pinConfig (uart_init hdr s .USART3 baud).2 (PIN 'D'.toNat 9) =
        (GPIO_MODE_AF, GPIO_OTYPE_PUSH_PULL, GPIO_SPEED_HIGH, GPIO_PULL_NONE, 7) ∧
      (uart_init hdr s .USART3 baud).2.mem (.USART_CR1 .USART3) =
        hdr.USART_CR1_RE ||| hdr.USART_CR1_TE ||| hdr.USART_CR1_UE) := by
  obtain ⟨f1, f2, f3, -, -, -⟩ := hdr.fits
  refine ⟨⟨?_, ?_, ?_, ?_, ?_⟩, ⟨?_, ?_, ?_, ?_, ?_⟩, ⟨?_, ?_, ?_, ?_, ?_⟩⟩
  · exact (uart_init_some hdr s _ .USART1 baud _ _ _ rfl).1
  · rw [uart_init_rcc hdr s _ .USART1 baud _ _ _ rfl .RCC_APB2ENR rfl (by simp) (by simp)
      (by simp), write_mem _ _ _ (by simp), Function.update_same]
    exact or_and_self_u32 _ _ f1
  · exact (uart_init_pins hdr s _ .USART1 baud _ _ _ rfl (by decide) (by decide) (by decide)
      (by decide) (by decide)).1
  · exact (uart_init_pins hdr s _ .USART1 baud _ _ _ rfl (by decide) (by decide) (by decide)
      (by decide) (by decide)).2
  · rw [(uart_init_some hdr s _ .USART1 baud _ _ _ rfl).2.2.2]
    exact cr1_value hdr
  · exact (uart_init_some hdr s _ .USART2 baud _ _ _ rfl).1
  · rw [uart_init_rcc hdr s _ .USART2 baud _ _ _ rfl .RCC_APB1LENR rfl (by simp) (by simp)
      (by simp), write_mem _ _ _ (by simp), Function.update_same]
    exact or_and_self_u32 _ _ f2
  · exact (uart_init_pins hdr s _ .USART2 baud _ _ _ rfl (by decide) (by decide) (by decide)
      (by decide) (by decide)).1
  · exact (uart_init_pins hdr s _ .USART2 baud _ _ _ rfl (by decide) (by decide) (by decide)
      (by decide) (by decide)).2
  · rw [(uart_init_some hdr s _ .USART2 baud _ _ _ rfl).2.2.2]
    exact cr1_value hdr
  · exact (uart_init_some hdr s _ .USART3 baud _ _ _ rfl).1
  · rw [uart_init_rcc hdr s _ .USART3 baud _ _ _ rfl .RCC_APB1LENR rfl (by simp) (by simp)
      (by simp), write_mem _ _ _ (by simp), Function.update_same]
    exact or_and_self_u32 _ _ f3
  · exact (uart_init_pins hdr s _ .USART3 baud _ _ _ rfl (by decide) (by decide) (by decide)
      (by decide) (by decide)).1
  · exact (uart_init_pins hdr s _ .USART3 baud _ _ _ rfl (by decide) (by decide) (by decide)
      (by decide) (by decide)).2
  · rw [(uart_init_some hdr s _ .USART3 baud _ _ _ rfl).2.2.2]
    exact cr1_value hdr

/-- Witness of C10: USART3 at 115200 baud from the all-zero state, with the
masks of RM0481. -/
theorem C10_uart_init_success_witness :
    (uart_init stm32h563 Hw.zero .USART3 115200).1 = true ∧
      pinConfig (uart_init stm32h563 Hw.zero .USART3 115200).2 (PIN 'D'.toNat 8) =
        (GPIO_MODE_AF, GPIO_OTYPE_PUSH_PULL, GPIO_SPEED_HIGH, GPIO_PULL_NONE, 7) ∧
      pinConfig (uart_init stm32h563 Hw.zero .USART3 115200).2 (PIN 'D'.toNat 9) =
        (GPIO_MODE_AF, GPIO_OTYPE_PUSH_PULL, GPIO_SPEED_HIGH, GPIO_PULL_NONE, 7) ∧
      (uart_init stm32h563 Hw.zero .USART3 115200).2.mem (.USART_CR1 .USART3) = 13 :=
  ⟨(C10_uart_init_success stm32h563 Hw.zero 115200 (by decide)).2.2.1,
   (C10_uart_init_success stm32h563 Hw.zero 115200 (by decide)).2.2.2.2.1,
   (C10_uart_init_success stm32h563 Hw.zero 115200 (by decide)).2.2.2.2.2.1,
   (C10_uart_init_success stm32h563 Hw.zero 115200 (by decide)).2.2.2.2.2.2⟩

/-! ## Clock constants and the order of the stores of gpio_init -/

theorem storesSince_of_log (s s' : Hw) (l : List (Reg × Nat)) (h : s'.log = s.log ++ l) :
    storesSince s s' = l := by
  unfold storesSince
  rw [h, List.drop_left]

theorem gpio_init_log (s : Hw) (pin mode type speed pull af : Nat) :
    (gpio_init s pin mode type speed pull af).log =
      s.log ++
        [(Reg.RCC_AHB2ENR, u32 (s.mem .RCC_AHB2ENR ||| BIT (PINBANK (u16 pin)))),
         (Reg.GPIO_OTYPER (PINBANK (u16 pin)),
            clrsetVal (s.mem (.GPIO_OTYPER (PINBANK (u16 pin))))
              (u32 (1 <<< u8 (PINNO (u16 pin)))) (u32 (u8 type <<< u8 (PINNO (u16 pin))))),
         (Reg.GPIO_OSPEEDR (PINBANK (u16 pin)),
            clrsetVal (s.mem (.GPIO_OSPEEDR (PINBANK (u16 pin))))
              (u32 (3 <<< (u8 (PINNO (u16 pin)) * 2)))
              (u32 (u8 speed <<< (u8 (PINNO (u16 pin)) * 2)))),
         (Reg.GPIO_PUPDR (PINBANK (u16 pin)),
            clrsetVal (s.mem (.GPIO_PUPDR (PINBANK (u16 pin))))
              (u32 (3 <<< (u8 (PINNO (u16 pin)) * 2)))
              (u32 (u8 pull <<< (u8 (PINNO (u16 pin)) * 2)))),
         (Reg.GPIO_AFR (PINBANK (u16 pin)) (u8 (PINNO (u16 pin)) >>> 3),
            clrsetVal (s.mem (.GPIO_AFR (PINBANK (u16 pin)) (u8 (PINNO (u16 pin)) >>> 3)))
              (u32 (15 <<< ((u8 (PINNO (u16 pin)) &&& 7) * 4)))
              (u32 (u8 af <<< ((u8 (PINNO (u16 pin)) &&& 7) * 4)))),
         (Reg.GPIO_MODER (PINBANK (u16 pin)),
            clrsetVal (s.mem (.GPIO_MODER (PINBANK (u16 pin))))
              (u32 (3 <<< (u8 (PINNO (u16 pin)) * 2)))
              (u32 (u8 mode <<< (u8 (PINNO (u16 pin)) * 2))))] := by
  simp only [gpio_init, CLRSET, write_log, gpio_bank, GPIO, u16_u16, Hw.read, clrsetVal,
    List.append_assoc, List.singleton_append, u32_u32]
  simp [write_mem, Function.update_apply]

/-- C12: with the constants of lines 32-39, `SYS_FREQUENCY` and
`AHB_FREQUENCY` are 250,000,000 and `APB1_FREQUENCY` and `APB2_FREQUENCY` are
125,000,000; no step of the computation leaves the range of its C type (the
product of the enumerators that of `int`, the value before the conversion to
`unsigned long` that of 32 bits), and none of the four exceeds the 250 MHz the
source documents as the maximum. -/
theorem C12_frequencies :
    (PLL1_HSI = 64 ∧ PLL1_M = 32 ∧ PLL1_N = 250 ∧ PLL1_P = 2 ∧ HPRE = 7 ∧ PPRE1 = 4 ∧
      PPRE2 = 4) ∧
    (SYS_FREQUENCY = 250000000 ∧ AHB_FREQUENCY = 250000000 ∧ APB1_FREQUENCY = 125000000 ∧
      APB2_FREQUENCY = 125000000) ∧
    (PLL1_HSI * PLL1_N < 2147483648 ∧ 1 <<< (HPRE - 7) < 4294967296 ∧
      1 <<< (PPRE1 - 3) < 4294967296 ∧ 1 <<< (PPRE2 - 3) < 4294967296 ∧
      PLL1_HSI * PLL1_N / PLL1_M / PLL1_P / BIT (HPRE - 7) * 1000000 < 4294967296) ∧
    (SYS_FREQUENCY ≤ 250000000 ∧ AHB_FREQUENCY ≤ 250000000 ∧ APB1_FREQUENCY ≤ 250000000 ∧
      APB2_FREQUENCY ≤ 250000000) := by
  decide

/-- C13: the stores every call of `gpio_init` executes are, in this order: the
clock-enable store to RCC AHB2ENR, then the stores to OTYPER, OSPEEDR, PUPDR
and `AFR[n >> 3]` of the pin's bank, and last the store to MODER.  MODER is
stored to once, after the type, speed, pull and alternate-function stores. -/
theorem C13_gpio_init_order (s : Hw) (pin mode type speed pull af : Nat) :
    (storesSince s (gpio_init s pin mode type speed pull af)).map Prod.fst =
        [Reg.RCC_AHB2ENR, Reg.GPIO_OTYPER (PINBANK (u16 pin)),
          Reg.GPIO_OSPEEDR (PINBANK (u16 pin)), Reg.GPIO_PUPDR (PINBANK (u16 pin)),
          Reg.GPIO_AFR (PINBANK (u16 pin)) (u8 (PINNO (u16 pin)) >>> 3),
          Reg.GPIO_MODER (PINBANK (u16 pin))] ∧
      (storesSince s (gpio_init s pin mode type speed pull af)).head? =
        some (Reg.RCC_AHB2ENR, u32 (s.mem .RCC_AHB2ENR ||| BIT (PINBANK (u16 pin)))) ∧
      (storesSince s (gpio_init s pin mode type speed pull af)).getLast? =
        some (Reg.GPIO_MODER (PINBANK (u16 pin)),
          clrsetVal (s.mem (.GPIO_MODER (PINBANK (u16 pin))))
            (u32 (3 <<< (u8 (PINNO (u16 pin)) * 2)))
            (u32 (u8 mode <<< (u8 (PINNO (u16 pin)) * 2)))) ∧
      (gpio_init s pin mode type speed pull af).log.take s.log.length = s.log := by
  rw [storesSince_of_log _ _ _ (gpio_init_log s pin mode type speed pull af)]
  refine ⟨rfl, rfl, rfl, ?_⟩
  rw [gpio_init_log, List.take_left]

/-! ## The word stored to BSRR -/

theorem BIT_eq (n : Nat) (hn : n < 32) : BIT n = 2 ^ n := by
  unfold BIT
  rw [Nat.one_shiftLeft]
  exact u32_of_lt (by
    have : (4294967296 : Nat) = 2 ^ 32 := by norm_num
    rw [this]
    exact Nat.pow_lt_pow_right (by norm_num) hn)

theorem bsrr_word (n sh : Nat) (hn : n ≤ 15) (hsh : sh ≤ 16) :
    u32 (u32 (BIT n <<< sh)) = 2 ^ (n + sh) := by
  rw [u32_u32, BIT_eq n (by omega), Nat.shiftLeft_eq, ← Nat.pow_add]
  exact u32_of_lt (by
    have : (4294967296 : Nat) = 2 ^ 32 := by norm_num
    rw [this]
    exact Nat.pow_lt_pow_right (by norm_num) (by omega))

theorem gpio_write_log (s : Hw) (pin : Nat) (val : Bool) (hpin : pin < 65536)
    (hn : PINNO pin ≤ 15) :
    (gpio_write s pin val).log =
      s.log ++ [(Reg.GPIO_BSRR (PINBANK pin),
        if val then 2 ^ PINNO pin else 2 ^ (PINNO pin + 16))] := by
  unfold gpio_write
  simp only [write_log, u16_of_lt hpin, gpio_bank, GPIO]
  cases val
  · simp only [Bool.false_eq_true, if_false]
    rw [bsrr_word _ _ hn (le_refl _)]
  · simp only [if_true]
    rw [bsrr_word _ _ hn (Nat.zero_le _), Nat.add_zero]

/-- C18: for a pin with number `n` in 0..15, the one store `gpio_write`
executes goes to BSRR of the pin's bank, and its word has exactly one bit
set: bit `n` when `val` is true, bit `n + 16` when it is false.  The one store
of `gpio_toggle` is the word with bit `n + 16` when ODR bit `n` is set and
with bit `n` otherwise.  Neither changes another bit of ODR, nor any other
register. -/
theorem C18_bsrr_single_bit (s : Hw) (pin : Nat) (val : Bool) (hpin : pin < 65536)
    (hn : PINNO pin ≤ 15) :
    storesSince s (gpio_write s pin val) =
        [(Reg.GPIO_BSRR (PINBANK pin), if val then 2 ^ PINNO pin else 2 ^ (PINNO pin + 16))] ∧
      storesSince s (gpio_toggle s pin) =
        [(Reg.GPIO_BSRR (PINBANK pin),
          if (s.mem (.GPIO_ODR (PINBANK pin))).testBit (PINNO pin) then 2 ^ (PINNO pin + 16)
          else 2 ^ PINNO pin)] ∧
      (∀ i, i ≠ PINNO pin →
        ((gpio_write s pin val).mem (.GPIO_ODR (PINBANK pin))).testBit i =
          (s.mem (.GPIO_ODR (PINBANK pin))).testBit i) ∧
      (∀ i, i ≠ PINNO pin →
        ((gpio_toggle s pin).mem (.GPIO_ODR (PINBANK pin))).testBit i =
          (s.mem (.GPIO_ODR (PINBANK pin))).testBit i) ∧
      (∀ r, r ≠ .GPIO_ODR (PINBANK pin) →
        (gpio_write s pin val).mem r = s.mem r ∧ (gpio_toggle s pin).mem r = s.mem r) := by
  have hb : gpio_bank pin = PINBANK pin := by simp [gpio_bank, GPIO, u16_of_lt hpin]
  refine ⟨?_, ?_, ?_, ?_, ?_⟩
  · exact storesSince_of_log _ _ _ (gpio_write_log s pin val hpin hn)
  · rw [gpio_toggle_eq_write s pin hpin hn]
    have h := storesSince_of_log _ _ _ (gpio_write_log s pin
      (!(s.mem (.GPIO_ODR (PINBANK pin))).testBit (PINNO pin)) hpin hn)
    rw [h]
    cases (s.mem (.GPIO_ODR (PINBANK pin))).testBit (PINNO pin) <;> rfl
  · intro i hi
    rw [gpio_write_ODR_testBit s pin val i hpin hn, if_neg hi]
  · intro i hi
    rw [gpio_toggle_ODR_testBit s pin i hpin hn, if_neg hi]
  · intro r hr
    rw [← hb] at hr
    exact ⟨gpio_write_mem_other s pin val r hr, gpio_toggle_mem_other s pin r hr⟩

/-- Witness of C18 at PB10 (pin value 0x10A) from the all-zero state: the word
stored is bit 10 for true. -/
theorem C18_bsrr_single_bit_witness :
    storesSince Hw.zero (gpio_write Hw.zero 266 true) = [(Reg.GPIO_BSRR 1, 1024)] ∧
      storesSince Hw.zero (gpio_toggle Hw.zero 266) = [(Reg.GPIO_BSRR 1, 1024)] :=
  ⟨(C18_bsrr_single_bit Hw.zero 266 true (by decide) (by decide)).1,
   (C18_bsrr_single_bit Hw.zero 266 true (by decide) (by decide)).2.1⟩

/-! ## Idempotence of gpio_init -/

theorem clrsetVal_testBit_gen (R C S i : Nat) :
    (clrsetVal R C S).testBit i =
      (decide (i < 32) && ((R.testBit i && !C.testBit i) || S.testBit i)) := by
  unfold clrsetVal
  rw [testBit_u32, Nat.testBit_or, Nat.testBit_and, testBit_not32]
  by_cases h : i < 32 <;> simp [h]

theorem clrsetVal_idem (R C S : Nat) : clrsetVal (clrsetVal R C S) C S = clrsetVal R C S := by
  apply Nat.eq_of_testBit_eq
  intro i
  simp only [clrsetVal_testBit_gen]
  cases decide (i < 32) <;> cases R.testBit i <;> cases C.testBit i <;> cases S.testBit i <;> rfl

theorem or_u32_idem (x b : Nat) : u32 (u32 (x ||| b) ||| b) = u32 (x ||| b) := by
  apply Nat.eq_of_testBit_eq
  intro i
  simp only [testBit_u32, Nat.testBit_or]
  cases decide (i < 32) <;> cases x.testBit i <;> cases b.testBit i <;> rfl

theorem gpio_init_twice_mem (s : Hw) (pin mode type speed pull af : Nat) :
    (gpio_init (gpio_init s pin mode type speed pull af) pin mode type speed pull af).mem =
      (gpio_init s pin mode type speed pull af).mem := by
  funext r
  rw [gpio_init_mem]
  simp only [gpio_init_mem s]
  split_ifs
  · exact clrsetVal_idem _ _ _
  · exact clrsetVal_idem _ _ _
  · exact clrsetVal_idem _ _ _
  · exact clrsetVal_idem _ _ _
  · exact clrsetVal_idem _ _ _
  · exact or_u32_idem _ _
  · rfl

theorem gpio_init_AHB2ENR (s : Hw) (pin mode type speed pull af : Nat) :
    (gpio_init s pin mode type speed pull af).mem .RCC_AHB2ENR =
      u32 (s.mem .RCC_AHB2ENR ||| BIT (PINBANK (u16 pin))) := by
  rw [gpio_init_mem]
  simp

theorem AHB2ENR_testBit (x b i : Nat) (hx : x < 4294967296) :
    (u32 (x ||| BIT b)).testBit i = (x.testBit i || (decide (i < 32) && decide (b = i))) := by
  rw [testBit_u32, Nat.testBit_or, testBit_BIT]
  by_cases h : i < 32
  · simp [h]
  · have : x.testBit i = false :=
      testBit_of_lt_two_pow (w := 32) (by simpa using hx) (Nat.le_of_not_lt h)
    simp [h, this]

/-- C19: `gpio_init` is idempotent.  For every pin, every argument values
and every prior state, `gpio_init` called twice in a row with the same
arguments leaves every register with the content one call leaves.  In
AHB2ENR the clock-enable bit of the pin's bank (a bank below 32, the width of
the register) is set after the two calls and every other bit is as it was
before them. -/
theorem C19_gpio_init_idempotent (s : Hw) (pin mode type speed pull af : Nat) :
    (gpio_init (gpio_init s pin mode type speed pull af) pin mode type speed pull af).mem =
        (gpio_init s pin mode type speed pull af).mem ∧
      (PINBANK (u16 pin) < 32 →
        ((gpio_init (gpio_init s pin mode type speed pull af) pin mode type speed pull af).mem
          .RCC_AHB2ENR).testBit (PINBANK (u16 pin)) = true) ∧
      (∀ i, i ≠ PINBANK (u16 pin) →
        ((gpio_init (gpio_init s pin mode type speed pull af) pin mode type speed pull af).mem
          .RCC_AHB2ENR).testBit i = (s.mem .RCC_AHB2ENR).testBit i) := by
  refine ⟨gpio_init_twice_mem s pin mode type speed pull af, ?_, ?_⟩
  · intro hb
    rw [gpio_init_twice_mem, gpio_init_AHB2ENR, AHB2ENR_testBit _ _ _ (s.wf _)]
    simp [hb]
  · intro i hi
    rw [gpio_init_twice_mem, gpio_init_AHB2ENR, AHB2ENR_testBit _ _ _ (s.wf _)]
    have : ¬ PINBANK (u16 pin) = i := fun h => hi h.symm
    simp [this]

/-! ## Commutation of gpio_init on different pins -/

theorem clrsetVal_comm (R m1 v1 k1 w1 m2 v2 k2 w2 : Nat) (hm1 : m1 = 2 ^ w1 - 1)
    (hm2 : m2 = 2 ^ w2 - 1) (hv1 : v1 < 2 ^ w1) (hv2 : v2 < 2 ^ w2)
    (hd : k1 + w1 ≤ k2 ∨ k2 + w2 ≤ k1) :
    clrsetVal (clrsetVal R (u32 (m1 <<< k1)) (u32 (v1 <<< k1))) (u32 (m2 <<< k2))
        (u32 (v2 <<< k2)) =
      clrsetVal (clrsetVal R (u32 (m2 <<< k2)) (u32 (v2 <<< k2))) (u32 (m1 <<< k1))
        (u32 (v1 <<< k1)) := by
  apply Nat.eq_of_testBit_eq
  intro i
  simp only [clrsetVal_testBit _ m1 v1 k1 w1 _ hm1, clrsetVal_testBit _ m2 v2 k2 w2 _ hm2]
  by_cases h32 : i < 32
  · by_cases h1 : k1 ≤ i ∧ i - k1 < w1
    · have h2a : ¬ (k2 ≤ i ∧ i - k2 < w2) := by omega
      have hv : (decide (k2 ≤ i) && v2.testBit (i - k2)) = false := by
        by_cases hk : k2 ≤ i
        · have : v2.testBit (i - k2) = false := testBit_of_lt_two_pow hv2 (by omega)
          simp [this]
        · simp [hk]
      have h2b : (decide (k2 ≤ i) && decide (i - k2 < w2)) = false := by
        simpa using h2a
      simp [h32, h1.1, h1.2, hv, h2b]
    · have hv : (decide (k1 ≤ i) && v1.testBit (i - k1)) = false := by
        by_cases hk : k1 ≤ i
        · have : v1.testBit (i - k1) = false := testBit_of_lt_two_pow hv1 (by omega)
          simp [this]
        · simp [hk]
      have h1b : (decide (k1 ≤ i) && decide (i - k1 < w1)) = false := by
        simpa using h1
      simp [h32, hv, h1b]
  · simp [h32]

theorem or_u32_comm (x a b : Nat) : u32 (u32 (x ||| a) ||| b) = u32 (u32 (x ||| b) ||| a) := by
  apply Nat.eq_of_testBit_eq
  intro i
  simp only [testBit_u32, Nat.testBit_or]
  cases decide (i < 32) <;> cases x.testBit i <;> cases a.testBit i <;> cases b.testBit i <;> rfl

theorem PINBANK_eq_div (p : Nat) : PINBANK p = p / 256 := by
  unfold PINBANK
  rw [Nat.shiftRight_eq_div_pow]

theorem PINNO_eq_mod (p : Nat) : PINNO p = p % 256 := by
  unfold PINNO
  exact Nat.and_pow_two_sub_one_eq_mod p 8

theorem pin_ext (p q : Nat) (hb : PINBANK p = PINBANK q) (hn : PINNO p = PINNO q) : p = q := by
  rw [PINBANK_eq_div, PINBANK_eq_div] at hb
  rw [PINNO_eq_mod, PINNO_eq_mod] at hn
  omega

theorem gpio_init_mem_step (s : Hw) (pin mode type speed pull af : Nat) (r : Reg) :
    (gpio_init s pin mode type speed pull af).mem r =
      gpioStep (PINBANK (u16 pin)) (u8 (PINNO (u16 pin))) (u8 mode) (u8 type) (u8 speed)
        (u8 pull) (u8 af) r (s.mem r) := by
  rw [gpio_init_mem]
  rfl

theorem gpioStep_comm (b1 n1 m1 t1 sp1 pu1 a1 b2 n2 m2 t2 sp2 pu2 a2 : Nat) (r : Reg) (x : Nat)
    (hm1 : m1 ≤ 3) (ht1 : t1 ≤ 1) (hsp1 : sp1 ≤ 3) (hpu1 : pu1 ≤ 3) (ha1 : a1 ≤ 15)
    (hm2 : m2 ≤ 3) (ht2 : t2 ≤ 1) (hsp2 : sp2 ≤ 3) (hpu2 : pu2 ≤ 3) (ha2 : a2 ≤ 15)
    (hne : b1 ≠ b2 ∨ n1 ≠ n2) :
    gpioStep b2 n2 m2 t2 sp2 pu2 a2 r (gpioStep b1 n1 m1 t1 sp1 pu1 a1 r x) =
      gpioStep b1 n1 m1 t1 sp1 pu1 a1 r (gpioStep b2 n2 m2 t2 sp2 pu2 a2 r x) := by
  cases r <;>
    simp only [gpioStep, reduceCtorEq, if_false, if_true, Reg.GPIO_MODER.injEq,
      Reg.GPIO_AFR.injEq, Reg.GPIO_PUPDR.injEq, Reg.GPIO_OSPEEDR.injEq, Reg.GPIO_OTYPER.injEq]
  case RCC_AHB2ENR => exact or_u32_comm _ _ _
  case GPIO_MODER =>
    rename_i bank
    by_cases h1 : bank = b1
    · by_cases h2 : bank = b2
      · simp only [if_pos h1, if_pos h2]
        have hn : n1 ≠ n2 := hne.resolve_left (fun h => h (h1.symm.trans h2))
        exact clrsetVal_comm x 3 m1 (n1 * 2) 2 3 m2 (n2 * 2) 2 rfl rfl (by omega) (by omega) (by omega)
      · simp only [if_pos h1, if_neg h2]
    · by_cases h2 : bank = b2
      · simp only [if_neg h1, if_pos h2]
      · simp only [if_neg h1, if_neg h2]
  case GPIO_OSPEEDR =>
    rename_i bank
    by_cases h1 : bank = b1
    · by_cases h2 : bank = b2
      · simp only [if_pos h1, if_pos h2]
        have hn : n1 ≠ n2 := hne.resolve_left (fun h => h (h1.symm.trans h2))
        exact clrsetVal_comm x 3 sp1 (n1 * 2) 2 3 sp2 (n2 * 2) 2 rfl rfl (by omega) (by omega) (by omega)
      · simp only [if_pos h1, if_neg h2]
    · by_cases h2 : bank = b2
      · simp only [if_neg h1, if_pos h2]
      · simp only [if_neg h1, if_neg h2]
  case GPIO_PUPDR =>
    rename_i bank
    by_cases h1 : bank = b1
    · by_cases h2 : bank = b2
      · simp only [if_pos h1, if_pos h2]
        have hn : n1 ≠ n2 := hne.resolve_left (fun h => h (h1.symm.trans h2))
        exact clrsetVal_comm x 3 pu1 (n1 * 2) 2 3 pu2 (n2 * 2) 2 rfl rfl (by omega) (by omega) (by omega)
      · simp only [if_pos h1, if_neg h2]
    · by_cases h2 : bank = b2
      · simp only [if_neg h1, if_pos h2]
      · simp only [if_neg h1, if_neg h2]
  case GPIO_OTYPER =>
    rename_i bank
    by_cases h1 : bank = b1
    · by_cases h2 : bank = b2
      · simp only [if_pos h1, if_pos h2]
        have hn : n1 ≠ n2 := hne.resolve_left (fun h => h (h1.symm.trans h2))
        exact clrsetVal_comm x 1 t1 n1 1 1 t2 n2 1 rfl rfl (by omega) (by omega) (by omega)
      · simp only [if_pos h1, if_neg h2]
    · by_cases h2 : bank = b2
      · simp only [if_neg h1, if_pos h2]
      · simp only [if_neg h1, if_neg h2]
  case GPIO_AFR =>
    rename_i bank i
    by_cases h1 : bank = b1 ∧ i = n1 >>> 3
    · by_cases h2 : bank = b2 ∧ i = n2 >>> 3
      · simp only [if_pos h1, if_pos h2]
        have hn : n1 ≠ n2 := hne.resolve_left (fun h => h (h1.1.symm.trans h2.1))
        have hi : n1 / 8 = n2 / 8 := by
          rw [← shr3, ← shr3]
          exact h1.2.symm.trans h2.2
        rw [and7, and7]
        exact clrsetVal_comm x 15 a1 (n1 % 8 * 4) 4 15 a2 (n2 % 8 * 4) 4 rfl rfl (by omega)
          (by omega) (by omega)
      · simp only [if_pos h1, if_neg h2]
    · by_cases h2 : bank = b2 ∧ i = n2 >>> 3
      · simp only [if_neg h1, if_pos h2]
      · simp only [if_neg h1, if_neg h2]

theorem gpio_init_comm_mem (s : Hw) (p1 m1 t1 sp1 pu1 a1 p2 m2 t2 sp2 pu2 a2 : Nat)
    (hp1 : p1 < 65536) (hp2 : p2 < 65536)
    (hm1 : m1 ≤ 3) (ht1 : t1 ≤ 1) (hsp1 : sp1 ≤ 3) (hpu1 : pu1 ≤ 3) (ha1 : a1 ≤ 15)
    (hm2 : m2 ≤ 3) (ht2 : t2 ≤ 1) (hsp2 : sp2 ≤ 3) (hpu2 : pu2 ≤ 3) (ha2 : a2 ≤ 15)
    (hne : PINBANK p1 ≠ PINBANK p2 ∨ PINNO p1 ≠ PINNO p2) :
    (gpio_init (gpio_init s p1 m1 t1 sp1 pu1 a1) p2 m2 t2 sp2 pu2 a2).mem =
      (gpio_init (gpio_init s p2 m2 t2 sp2 pu2 a2) p1 m1 t1 sp1 pu1 a1).mem := by
  funext r
  rw [gpio_init_mem_step, gpio_init_mem_step, gpio_init_mem_step, gpio_init_mem_step,
    u16_of_lt hp1, u16_of_lt hp2, u8_of_lt (PINNO_lt p1), u8_of_lt (PINNO_lt p2),
    u8_of_lt (show m1 < 256 by omega), u8_of_lt (show t1 < 256 by omega),
    u8_of_lt (show sp1 < 256 by omega), u8_of_lt (show pu1 < 256 by omega),
    u8_of_lt (show a1 < 256 by omega), u8_of_lt (show m2 < 256 by omega),
    u8_of_lt (show t2 < 256 by omega), u8_of_lt (show sp2 < 256 by omega),
    u8_of_lt (show pu2 < 256 by omega), u8_of_lt (show a2 < 256 by omega)]
  exact gpioStep_comm _ _ _ _ _ _ _ _ _ _ _ _ _ _ r _ hm1 ht1 hsp1 hpu1 ha1 hm2 ht2 hsp2 hpu2
    ha2 hne

/-- C20: `gpio_init` calls on different pins commute.  For two pins that
differ in bank or in number (numbers 0..15) and field values within their
widths, configuring the first and then the second leaves every register with
the content that configuring the second and then the first leaves. -/
theorem C20_gpio_init_commute (s : Hw) (p1 m1 t1 sp1 pu1 a1 p2 m2 t2 sp2 pu2 a2 : Nat)
    (hp1 : p1 < 65536) (hp2 : p2 < 65536) (_hn1 : PINNO p1 ≤ 15) (_hn2 : PINNO p2 ≤ 15)
    (hm1 : m1 ≤ 3) (ht1 : t1 ≤ 1) (hsp1 : sp1 ≤ 3) (hpu1 : pu1 ≤ 3) (ha1 : a1 ≤ 15)
    (hm2 : m2 ≤ 3) (ht2 : t2 ≤ 1) (hsp2 : sp2 ≤ 3) (hpu2 : pu2 ≤ 3) (ha2 : a2 ≤ 15)
    (hne : PINBANK p1 ≠ PINBANK p2 ∨ PINNO p1 ≠ PINNO p2) :
    (gpio_init (gpio_init s p1 m1 t1 sp1 pu1 a1) p2 m2 t2 sp2 pu2 a2).mem =
      (gpio_init (gpio_init s p2 m2 t2 sp2 pu2 a2) p1 m1 t1 sp1 pu1 a1).mem :=
  gpio_init_comm_mem s p1 m1 t1 sp1 pu1 a1 p2 m2 t2 sp2 pu2 a2 hp1 hp2 hm1 ht1 hsp1 hpu1 ha1
    hm2 ht2 hsp2 hpu2 ha2 hne

/-- Witness of C20: PA9 and PA10 configured as `uart_init` does, in both
orders, from the all-zero state. -/
theorem C20_gpio_init_commute_witness :
    (gpio_init (gpio_init Hw.zero 9 2 0 2 0 7) 10 2 0 2 0 7).mem =
      (gpio_init (gpio_init Hw.zero 10 2 0 2 0 7) 9 2 0 2 0 7).mem :=
  C20_gpio_init_commute Hw.zero 9 2 0 2 0 7 10 2 0 2 0 7 (by decide) (by decide) (by decide)
    (by decide) (by decide) (by decide) (by decide) (by decide) (by decide) (by decide)
    (by decide) (by decide) (by decide) (by decide) (Or.inr (by decide))

/-! ## Ethernet pins -/

theorem gpio_init_pinConfig_other (s : Hw) (pin mode type speed pull af q : Nat)
    (hpin : pin < 65536) (hmode : mode ≤ 3) (htype : type ≤ 1) (hspeed : speed ≤ 3)
    (hpull : pull ≤ 3) (haf : af ≤ 15)
    (hne : PINBANK q ≠ PINBANK pin ∨ PINNO q ≠ PINNO pin) :
    pinConfig (gpio_init s pin mode type speed pull af) q = pinConfig s q := by
  by_cases hb : PINBANK q = PINBANK pin
  · have hn : PINNO q ≠ PINNO pin := hne.resolve_left (fun h => h hb)
    have hlt : PINNO q < PINNO pin ∨ PINNO pin < PINNO q := by omega
    unfold pinConfig
    rw [hb, gpio_init_other_pinMode s pin mode type speed pull af _ hpin
        (hlt.imp id fun h => ⟨hmode, h⟩),
      gpio_init_other_pinType s pin mode type speed pull af _ hpin
        (hlt.imp id fun h => ⟨htype, h⟩),
      gpio_init_other_pinSpeed s pin mode type speed pull af _ hpin
        (hlt.imp id fun h => ⟨hspeed, h⟩),
      gpio_init_other_pinPull s pin mode type speed pull af _ hpin
        (hlt.imp id fun h => ⟨hpull, h⟩),
      gpio_init_other_pinAF s pin mode type speed pull af _ hpin
        (hlt.imp id fun h => Or.inr ⟨haf, h⟩)]
  · unfold pinConfig pinMode pinType pinSpeed pinPull pinAF
    rw [gpio_init_other_bank s pin mode type speed pull af (.GPIO_MODER _) _ hpin rfl hb,
      gpio_init_other_bank s pin mode type speed pull af (.GPIO_OTYPER _) _ hpin rfl hb,
      gpio_init_other_bank s pin mode type speed pull af (.GPIO_OSPEEDR _) _ hpin rfl hb,
      gpio_init_other_bank s pin mode type speed pull af (.GPIO_PUPDR _) _ hpin rfl hb,
      gpio_init_other_bank s pin mode type speed pull af (.GPIO_AFR _ _) _ hpin rfl hb]

theorem foldl_gpio_init_pinConfig (mode type speed pull af : Nat)
    (hmode : mode ≤ 3) (htype : type ≤ 1) (hspeed : speed ≤ 3) (hpull : pull ≤ 3)
    (haf : af ≤ 15) (l : List Nat) (hl : ∀ p ∈ l, p < 65536 ∧ PINNO p ≤ 15) (s : Hw) (q : Nat)
    (hq : q ∈ l) :
    pinConfig (l.foldl (fun s pin => gpio_init s pin mode type speed pull af) s) q =
      (mode, type, speed, pull, af) := by
  induction l using List.reverseRecOn generalizing s with
  | nil => exact absurd hq (List.not_mem_nil q)
  | append_singleton l x ih =>
    rw [List.foldl_append, List.foldl_cons, List.foldl_nil]
    have hx := hl x (by simp)
    by_cases hqx : q = x
    · subst hqx
      exact gpio_init_pinConfig_self _ q _ _ _ _ _ hx.1 hx.2 hmode htype hspeed hpull haf
    · have hql : q ∈ l := by
        rcases List.mem_append.mp hq with h | h
        · exact h
        · exact absurd (List.mem_singleton.mp h) hqx
      rw [gpio_init_pinConfig_other _ x _ _ _ _ _ q hx.1 hmode htype hspeed hpull haf]
      · exact ih (fun p hp => hl p (List.mem_append_left _ hp)) s hql
      · by_contra hc
        simp only [not_or, not_not] at hc
        exact hqx (pin_ext q x hc.1 hc.2)

theorem foldl_gpio_init_AHB2ENR (mode type speed pull af : Nat) (l : List Nat) (s : Hw)
    (i : Nat) (h : (s.mem .RCC_AHB2ENR).testBit i = true ∨
      (i < 32 ∧ ∃ p ∈ l, PINBANK (u16 p) = i)) :
    ((l.foldl (fun s pin => gpio_init s pin mode type speed pull af) s).mem
      .RCC_AHB2ENR).testBit i = true := by
  induction l generalizing s with
  | nil =>
    rcases h with h | ⟨-, p, hp, -⟩
    · exact h
    · exact absurd hp (List.not_mem_nil p)
  | cons x l ih =>
    rw [List.foldl_cons]
    apply ih
    rw [gpio_init_AHB2ENR, AHB2ENR_testBit _ _ _ (s.wf _)]
    rcases h with h | ⟨h32, p, hp, hpi⟩
    · left
      simp [h]
    · rcases List.mem_cons.mp hp with hpx | hpl
      · left
        subst hpx
        simp [h32, hpi]
      · right
        exact ⟨h32, p, hpl, hpi⟩

theorem ethernet_init_mem (hdr : EthHeader) (s : Hw) (r : Reg)
    (h : r.gpioBank.isSome ∨ r = .RCC_AHB2ENR) :
    (ethernet_init hdr s).mem r =
      (ethernet_pins.foldl
        (fun s pin =>
          gpio_init s pin GPIO_MODE_AF GPIO_OTYPE_PUSH_PULL GPIO_SPEED_INSANE GPIO_PULL_NONE 11)
        s).mem r := by
  unfold ethernet_init NVIC_EnableIRQ CLRSET
  simp only []
  rw [write_mem _ _ _ (by simp), write_mem _ _ _ (by simp), write_mem _ _ _ (by simp),
    write_mem _ _ _ (by simp)]
  rcases h with h | h
  · cases r <;> simp_all [Reg.gpioBank, Function.update_apply]
  · subst h
    simp [Function.update_apply]

/-- C11: from every prior state, after `ethernet_init` each of the nine pins
PA1, PA2, PA7, PB15, PC1, PC4, PC5, PG11 and PG13 reads back mode = alternate
function (2), type = push-pull, speed = 3, pull = none and alternate function
11, all in the same final state, and bits 0, 1, 2 and 6 of AHB2ENR (the
clocks of banks A, B, C and G) are set. -/
theorem C11_ethernet_init_pins (hdr : EthHeader) (s : Hw) :
    (∀ p ∈ [PIN 'A'.toNat 1, PIN 'A'.toNat 2, PIN 'A'.toNat 7, PIN 'B'.toNat 15,
        PIN 'C'.toNat 1, PIN 'C'.toNat 4, PIN 'C'.toNat 5, PIN 'G'.toNat 11,
        PIN 'G'.toNat 13],
      pinConfig (ethernet_init hdr s) p =
        (GPIO_MODE_AF, GPIO_OTYPE_PUSH_PULL, GPIO_SPEED_INSANE, GPIO_PULL_NONE, 11)) ∧
    (GPIO_MODE_AF = 2 ∧ GPIO_OTYPE_PUSH_PULL = 0 ∧ GPIO_SPEED_INSANE = 3 ∧ GPIO_PULL_NONE = 0) ∧
    (∀ i ∈ [0, 1, 2, 6], ((ethernet_init hdr s).mem .RCC_AHB2ENR).testBit i = true) := by
  refine ⟨?_, ⟨rfl, rfl, rfl, rfl⟩, ?_⟩
  · intro p hp
    have hp' : p ∈ ethernet_pins := hp
    have hc : pinConfig (ethernet_init hdr s) p =
        pinConfig (ethernet_pins.foldl (fun s pin =>
          gpio_init s pin GPIO_MODE_AF GPIO_OTYPE_PUSH_PULL GPIO_SPEED_INSANE GPIO_PULL_NONE 11)
          s) p :=
      pinConfig_congr _ _ p (fun r b hr => ethernet_init_mem hdr s r (Or.inl (by simp [hr])))
    rw [hc]
    exact foldl_gpio_init_pinConfig _ _ _ _ _ (by decide) (by decide) (by decide) (by decide)
      (by decide) ethernet_pins (by decide) s p hp'
  · intro i hi
    rw [ethernet_init_mem hdr s _ (Or.inr rfl)]
    apply foldl_gpio_init_AHB2ENR
    right
    simp only [List.mem_cons, List.mem_singleton, List.not_mem_nil, or_false] at hi
    rcases hi with h | h | h | h <;> subst h
    · exact ⟨by decide, PIN 'A'.toNat 1, by decide, by decide⟩
    · exact ⟨by decide, PIN 'B'.toNat 15, by decide, by decide⟩
    · exact ⟨by decide, PIN 'C'.toNat 1, by decide, by decide⟩
    · exact ⟨by decide, PIN 'G'.toNat 11, by decide, by decide⟩

/-! ## Polling loops and UART transmission -/

theorem tick_log (dev : (Reg → Nat) → Reg → Nat) (s : Hw) : (s.tick dev).log = s.log := rfl

theorem iterate_tick_log (dev : (Reg → Nat) → Reg → Nat) (k : Nat) (s : Hw) :
    ((Hw.tick dev)^[k] s).log = s.log := by
  induction k generalizing s with
  | zero => rfl
  | succ k ih => rw [Function.iterate_succ_apply, ih, tick_log]

theorem spin_one (dev : (Reg → Nat) → Reg → Nat) (s : Hw) : spin dev 1 s = s.tick dev := rfl

theorem pollUntil_ready (dev : (Reg → Nat) → Reg → Nat) (ready : Hw → Bool) (fuel : Nat)
    (s t : Hw) (h : pollUntil dev ready fuel s = some t) :
    ready t = true ∧ t.log = s.log := by
  induction fuel generalizing s with
  | zero => exact Option.noConfusion h
  | succ fuel ih =>
    unfold pollUntil at h
    by_cases hr : ready s = true
    · rw [if_pos hr] at h
      cases h
      exact ⟨hr, rfl⟩
    · rw [if_neg hr] at h
      obtain ⟨h1, h2⟩ := ih _ h
      exact ⟨h1, by rw [h2, spin_one, tick_log]⟩

theorem pollUntil_of_ready_at (dev : (Reg → Nat) → Reg → Nat) (ready : Hw → Bool) (k : Nat) :
    ∀ (fuel : Nat) (s : Hw), k < fuel → ready ((Hw.tick dev)^[k] s) = true →
      ∃ t, pollUntil dev ready fuel s = some t := by
  induction k with
  | zero =>
    intro fuel s hk hr
    obtain ⟨f, rfl⟩ : ∃ f, fuel = f + 1 := ⟨fuel - 1, by omega⟩
    have hr0 : ready s = true := hr
    exact ⟨s, by unfold pollUntil; rw [if_pos hr0]⟩
  | succ k ih =>
    intro fuel s hk hr
    obtain ⟨f, rfl⟩ : ∃ f, fuel = f + 1 := ⟨fuel - 1, by omega⟩
    unfold pollUntil
    by_cases hs : ready s = true
    · exact ⟨s, by rw [if_pos hs]⟩
    · rw [if_neg hs, spin_one]
      exact ih f (s.tick dev) (by omega) (by rwa [Function.iterate_succ_apply] at hr)

theorem pollUntil_total (dev : (Reg → Nat) → Reg → Nat) (ready : Hw → Bool) (fuel : Nat)
    (h : becomesReady dev ready fuel) (s : Hw) :
    ∃ t, pollUntil dev ready fuel s = some t ∧ ready t = true ∧ t.log = s.log := by
  obtain ⟨k, hk, hr⟩ := h s
  obtain ⟨t, ht⟩ := pollUntil_of_ready_at dev ready k fuel s hk hr
  exact ⟨t, ht, pollUntil_ready dev ready fuel s t ht⟩

theorem u8_u8 (x : Nat) : u8 (u8 x) = u8 x := Nat.mod_mod _ _

theorem uart_write_byte_spec (dev : (Reg → Nat) → Reg → Nat) (fuel : Nat) (s t : Hw)
    (uart : USART_Ptr) (byte : Nat) (h : uart_write_byte dev fuel s uart byte = some t) :
    t.read (.USART_ISR uart) &&& BIT 7 ≠ 0 ∧ t.log = s.log ++ [(Reg.USART_TDR uart, u8 byte)] := by
  unfold uart_write_byte at h
  obtain ⟨h1, h2⟩ := pollUntil_ready _ _ _ _ _ h
  refine ⟨of_decide_eq_true h1, ?_⟩
  rw [h2, write_log]
  have : u32 (u8 byte) = u8 byte :=
    u32_of_lt (lt_trans (Nat.mod_lt _ (by decide)) (by decide))
  rw [this]

theorem uart_write_byte_total (dev : (Reg → Nat) → Reg → Nat) (fuel : Nat) (s : Hw)
    (uart : USART_Ptr) (byte : Nat)
    (h : becomesReady dev (fun t => decide (t.read (.USART_ISR uart) &&& BIT 7 ≠ 0)) fuel) :
    ∃ t, uart_write_byte dev fuel s uart byte = some t := by
  unfold uart_write_byte
  obtain ⟨t, ht, -⟩ := pollUntil_total dev _ fuel h (s.write (.USART_TDR uart) (u8 byte))
  exact ⟨t, ht⟩

theorem promptDevice_ISR (uart : USART_Ptr) :
    becomesReady promptDevice (fun t => decide (t.read (.USART_ISR uart) &&& BIT 7 ≠ 0)) 2 := by
  intro s
  refine ⟨1, by decide, ?_⟩
  rw [decide_eq_true_eq, and_BIT_ne_zero _ _ (by decide)]
  show (u32 (s.mem (.USART_ISR uart) ||| 128)).testBit 7 = true
  rw [testBit_u32, Nat.testBit_or]
  simp
  right
  decide

/-- Counterexample to C15 as stated: with a device that raises bit 7 of ISR
and leaves bit 6 (transmit complete) clear, `uart_write_byte` returns, and
the ISR value of its last load is 128: bit 7 is set, bit 6 is not. -/
theorem C15_counterexample :
    (uart_write_byte promptDevice 2 Hw.zero .USART3 65).map
        (fun t => t.read (.USART_ISR .USART3)) = some 128 ∧
      Nat.testBit 128 6 = false ∧ Nat.testBit 128 7 = true := by
  decide

/-- C15 amended: `uart_write_byte` stores the byte to TDR, its only store, and
returns only in a state where bit 7 of ISR (TXE/TXFNF, transmit data register
empty) is set: whenever the call returns, the last ISR value it loaded has
bit 7 set.  With a device that raises bit 7 within `fuel` loads, the call
returns. -/
theorem C15_uart_write_byte_amended (dev : (Reg → Nat) → Reg → Nat) (fuel : Nat) (s : Hw)
    (uart : USART_Ptr) (byte : Nat) :
    (∀ t, uart_write_byte dev fuel s uart byte = some t →
      storesSince s t = [(Reg.USART_TDR uart, u8 byte)] ∧
        (t.read (.USART_ISR uart)).testBit 7 = true) ∧
    (becomesReady dev (fun t => decide (t.read (.USART_ISR uart) &&& BIT 7 ≠ 0)) fuel →
      ∃ t, uart_write_byte dev fuel s uart byte = some t) := by
  constructor
  · intro t ht
    obtain ⟨h1, h2⟩ := uart_write_byte_spec dev fuel s t uart byte ht
    exact ⟨storesSince_of_log _ _ _ h2, (and_BIT_ne_zero _ _ (by decide)).1 h1⟩
  · intro h
    exact uart_write_byte_total dev fuel s uart byte h

/-- Witness of C15 amended: with the example device and two loads, the call on
USART3 returns from the all-zero state. -/
theorem C15_uart_write_byte_amended_witness :
    ∃ t, uart_write_byte promptDevice 2 Hw.zero .USART3 65 = some t :=
  (C15_uart_write_byte_amended promptDevice 2 Hw.zero .USART3 65).2 (promptDevice_ISR .USART3)

theorem uart_write_buf_loop_spec (dev : (Reg → Nat) → Reg → Nat) (fuel : Nat) (uart : USART_Ptr)
    (buf : Nat → Nat)
    (h : becomesReady dev (fun t => decide (t.read (.USART_ISR uart) &&& BIT 7 ≠ 0)) fuel)
    (n : Nat) :
    ∀ (i : Nat) (s : Hw), ∃ t, uart_write_buf_loop dev fuel uart buf n i s = some t ∧
      t.log = s.log ++ (List.range n).map (fun j => (Reg.USART_TDR uart, u8 (buf (i + j)))) := by
  induction n with
  | zero =>
    intro i s
    exact ⟨s, rfl, by simp⟩
  | succ n ih =>
    intro i s
    obtain ⟨s1, hs1⟩ := uart_write_byte_total dev fuel s uart (u8 (buf i)) h
    obtain ⟨-, hlog1⟩ := uart_write_byte_spec dev fuel s s1 uart _ hs1
    obtain ⟨t, ht, hlogt⟩ := ih (i + 1) s1
    refine ⟨t, ?_, ?_⟩
    · unfold uart_write_buf_loop
      rw [hs1]
      exact ht
    · rw [hlogt, hlog1, u8_u8, List.range_succ_eq_map, List.map_cons, List.map_map,
        List.append_assoc, List.singleton_append]
      congr 2
      apply List.map_congr_left
      intro j _
      simp only [Function.comp_apply, Nat.add_zero]
      rw [Nat.add_assoc, Nat.add_comm 1 j]

/-- C16: for every buffer and every `len` (a `size_t`), with a device that
raises the polled flag within `fuel` loads after each byte, `uart_write_buf`
returns, and its stores are exactly `len` stores to TDR, of the bytes
`buf[0]`, `buf[1]`, ..., `buf[len-1]` in this order, each as an unsigned byte;
for `len = 0` there is no store. -/
theorem C16_uart_write_buf (dev : (Reg → Nat) → Reg → Nat) (fuel : Nat) (s : Hw)
    (uart : USART_Ptr) (buf : Nat → Nat) (len : Nat) (hlen : len < 4294967296)
    (h : becomesReady dev (fun t => decide (t.read (.USART_ISR uart) &&& BIT 7 ≠ 0)) fuel) :
    ∃ t, uart_write_buf dev fuel s uart buf len = some t ∧
      storesSince s t = (List.range len).map (fun i => (Reg.USART_TDR uart, u8 (buf i))) ∧
      (storesSince s t).length = len ∧
      (len = 0 → storesSince s t = []) := by
  obtain ⟨t, ht, hlog⟩ := uart_write_buf_loop_spec dev fuel uart buf h len 0 s
  have hs : storesSince s t =
      (List.range len).map (fun i => (Reg.USART_TDR uart, u8 (buf i))) := by
    rw [storesSince_of_log _ _ _ hlog]
    apply List.map_congr_left
    intro j _
    rw [Nat.zero_add]
  refine ⟨t, ?_, hs, ?_, ?_⟩
  · unfold uart_write_buf
    rw [u32_of_lt hlen]
    exact ht
  · rw [hs, List.length_map, List.length_range]
  · intro h0
    rw [hs, h0]
    rfl

/-- Witness of C16: the four bytes "ABCD" sent on USART3 with the example
device, from the all-zero state. -/
theorem C16_uart_write_buf_witness :
    ∃ t, uart_write_buf promptDevice 2 Hw.zero .USART3 (fun i => 65 + i) 4 = some t ∧
      storesSince Hw.zero t =
        [(Reg.USART_TDR .USART3, 65), (Reg.USART_TDR .USART3, 66),
          (Reg.USART_TDR .USART3, 67), (Reg.USART_TDR .USART3, 68)] :=
  (C16_uart_write_buf promptDevice 2 Hw.zero .USART3 (fun i => 65 + i) 4 (by decide)
    (promptDevice_ISR .USART3)).imp fun _ ht => ⟨ht.1, ht.2.1⟩

/-! ## The order of the stores of uart_init -/

theorem uart_init_log (hdr : DeviceHeader) (s t : Hw) (uart : USART_Ptr)
    (baud freq tx rx : Nat) (h : uart_select hdr s uart = some (t, freq, tx, rx)) :
    (uart_init hdr s uart baud).2.log =
      (gpio_init (gpio_init t tx GPIO_MODE_AF GPIO_OTYPE_PUSH_PULL GPIO_SPEED_HIGH 0 7)
        rx GPIO_MODE_AF GPIO_OTYPE_PUSH_PULL GPIO_SPEED_HIGH 0 7).log ++
      [(Reg.USART_CR1 uart, 0), (Reg.USART_BRR uart, u32 (baud_divisor freq (u32 baud))),
       (Reg.USART_CR1 uart, u32 (hdr.USART_CR1_RE ||| hdr.USART_CR1_TE)),
       (Reg.USART_CR1 uart,
         u32 (u32 (hdr.USART_CR1_RE ||| hdr.USART_CR1_TE) ||| hdr.USART_CR1_UE))] := by
  simp only [uart_init, h, write_log, Hw.read, List.append_assoc, List.singleton_append]
  rw [write_mem _ _ _ (by simp), Function.update_same]
  rfl

theorem uart_init_stores (hdr : DeviceHeader) (s t : Hw) (uart : USART_Ptr)
    (baud freq tx rx : Nat) (en : Reg × Nat)
    (h : uart_select hdr s uart = some (t, freq, tx, rx)) (ht : t.log = s.log ++ [en])
    (hf : freq < 4294967296) (hb : baud < 4294967296) :
    (storesSince s (uart_init hdr s uart baud).2).map Prod.fst =
        [en.1, Reg.RCC_AHB2ENR, Reg.GPIO_OTYPER (PINBANK (u16 tx)),
          Reg.GPIO_OSPEEDR (PINBANK (u16 tx)), Reg.GPIO_PUPDR (PINBANK (u16 tx)),
          Reg.GPIO_AFR (PINBANK (u16 tx)) (u8 (PINNO (u16 tx)) >>> 3),
          Reg.GPIO_MODER (PINBANK (u16 tx)),
          Reg.RCC_AHB2ENR, Reg.GPIO_OTYPER (PINBANK (u16 rx)),
          Reg.GPIO_OSPEEDR (PINBANK (u16 rx)), Reg.GPIO_PUPDR (PINBANK (u16 rx)),
          Reg.GPIO_AFR (PINBANK (u16 rx)) (u8 (PINNO (u16 rx)) >>> 3),
          Reg.GPIO_MODER (PINBANK (u16 rx)),
          Reg.USART_CR1 uart, Reg.USART_BRR uart, Reg.USART_CR1 uart, Reg.USART_CR1 uart] ∧
      (storesSince s (uart_init hdr s uart baud).2).head? = some en ∧
      (storesSince s (uart_init hdr s uart baud).2).drop 13 =
        [(Reg.USART_CR1 uart, 0), (Reg.USART_BRR uart, freq / baud),
         (Reg.USART_CR1 uart, hdr.USART_CR1_RE ||| hdr.USART_CR1_TE),
         (Reg.USART_CR1 uart,
           hdr.USART_CR1_RE ||| hdr.USART_CR1_TE ||| hdr.USART_CR1_UE)] := by
  have hlog := uart_init_log hdr s t uart baud freq tx rx h
  rw [gpio_init_log, gpio_init_log, ht] at hlog
  simp only [List.append_assoc] at hlog
  rw [storesSince_of_log _ _ _ hlog]
  obtain ⟨-, -, -, hUE, hRE, hTE⟩ := hdr.fits
  have e : (4294967296 : Nat) = 2 ^ 32 := by norm_num
  have h1 : hdr.USART_CR1_RE ||| hdr.USART_CR1_TE < 4294967296 := by
    rw [e] at hRE hTE ⊢
    exact Nat.or_lt_two_pow hRE hTE
  have hq : u32 (baud_divisor freq (u32 baud)) = freq / baud := by
    have := brr_value freq baud hf hb
    rwa [u32_of_lt hf] at this
  refine ⟨rfl, rfl, ?_⟩
  simp only [List.singleton_append, List.cons_append, List.nil_append, List.drop_succ_cons,
    List.drop_zero]
  rw [cr1_value, u32_of_lt h1, hq]

theorem or_and_right (x m : Nat) : (x ||| m) &&& m = m := by
  apply Nat.eq_of_testBit_eq
  intro i
  rw [Nat.testBit_and, Nat.testBit_or]
  cases x.testBit i <;> cases m.testBit i <;> rfl

/-- C17: the stores of a successful `uart_init`, for each of USART1, USART2
and USART3 and every baud rate `baud > 0`, are seventeen, in this order: the
bus clock-enable store, the six stores of `gpio_init` for tx and the six for
rx (each ending with MODER), then CR1 := 0, BRR := bus frequency / baud,
CR1 := RE | TE, and last CR1 := RE | TE | UE.  The store that sets UE is the
last one, after the clock-enable store, both MODER stores and the BRR store,
and the store before the one to BRR sets CR1 to 0. -/
theorem C17_uart_init_order (hdr : DeviceHeader) (s : Hw) (baud : Nat) (_hpos : 0 < baud)
    (hb : baud < 4294967296) :
    ((storesSince s (uart_init hdr s .USART1 baud).2).map Prod.fst =
        [Reg.RCC_APB2ENR, Reg.RCC_AHB2ENR, Reg.GPIO_OTYPER 0, Reg.GPIO_OSPEEDR 0,
          Reg.GPIO_PUPDR 0, Reg.GPIO_AFR 0 1, Reg.GPIO_MODER 0,
          Reg.RCC_AHB2ENR, Reg.GPIO_OTYPER 0, Reg.GPIO_OSPEEDR 0,
          Reg.GPIO_PUPDR 0, Reg.GPIO_AFR 0 1, Reg.GPIO_MODER 0,
          Reg.USART_CR1 .USART1, Reg.USART_BRR .USART1, Reg.USART_CR1 .USART1, Reg.USART_CR1 .USART1] ∧
      (storesSince s (uart_init hdr s .USART1 baud).2).drop 13 =
        [(Reg.USART_CR1 .USART1, 0), (Reg.USART_BRR .USART1, APB2_FREQUENCY / baud),
         (Reg.USART_CR1 .USART1, hdr.USART_CR1_RE ||| hdr.USART_CR1_TE),
         (Reg.USART_CR1 .USART1, hdr.USART_CR1_RE ||| hdr.USART_CR1_TE ||| hdr.USART_CR1_UE)]) ∧
    ((storesSince s (uart_init hdr s .USART2 baud).2).map Prod.fst =
        [Reg.RCC_APB1LENR, Reg.RCC_AHB2ENR, Reg.GPIO_OTYPER 0, Reg.GPIO_OSPEEDR 0,
          Reg.GPIO_PUPDR 0, Reg.GPIO_AFR 0 0, Reg.GPIO_MODER 0,
          Reg.RCC_AHB2ENR, Reg.GPIO_OTYPER 0, Reg.GPIO_OSPEEDR 0,
          Reg.GPIO_PUPDR 0, Reg.GPIO_AFR 0 0, Reg.GPIO_MODER 0,
          Reg.USART_CR1 .USART2, Reg.USART_BRR .USART2, Reg.USART_CR1 .USART2, Reg.USART_CR1 .USART2] ∧
      (storesSince s (uart_init hdr s .USART2 baud).2).drop 13 =
        [(Reg.USART_CR1 .USART2, 0), (Reg.USART_BRR .USART2, APB1_FREQUENCY / baud),
         (Reg.USART_CR1 .USART2, hdr.USART_CR1_RE ||| hdr.USART_CR1_TE),
         (Reg.USART_CR1 .USART2, hdr.USART_CR1_RE ||| hdr.USART_CR1_TE ||| hdr.USART_CR1_UE)]) ∧
    ((storesSince s (uart_init hdr s .USART3 baud).2).map Prod.fst =
        [Reg.RCC_APB1LENR, Reg.RCC_AHB2ENR, Reg.GPIO_OTYPER 3, Reg.GPIO_OSPEEDR 3,
          Reg.GPIO_PUPDR 3, Reg.GPIO_AFR 3 1, Reg.GPIO_MODER 3,
          Reg.RCC_AHB2ENR, Reg.GPIO_OTYPER 3, Reg.GPIO_OSPEEDR 3,
          Reg.GPIO_PUPDR 3, Reg.GPIO_AFR 3 1, Reg.GPIO_MODER 3,
          Reg.USART_CR1 .USART3, Reg.USART_BRR .USART3, Reg.USART_CR1 .USART3, Reg.USART_CR1 .USART3] ∧
      (storesSince s (uart_init hdr s .USART3 baud).2).drop 13 =
        [(Reg.USART_CR1 .USART3, 0), (Reg.USART_BRR .USART3, APB1_FREQUENCY / baud),
         (Reg.USART_CR1 .USART3, hdr.USART_CR1_RE ||| hdr.USART_CR1_TE),
         (Reg.USART_CR1 .USART3, hdr.USART_CR1_RE ||| hdr.USART_CR1_TE ||| hdr.USART_CR1_UE)]) ∧
    (hdr.USART_CR1_RE ||| hdr.USART_CR1_TE ||| hdr.USART_CR1_UE) &&& hdr.USART_CR1_UE =
      hdr.USART_CR1_UE := by
  have h1 := uart_init_stores hdr s _ .USART1 baud _ _ _ _ rfl (write_log _ _ _)
    (u32_lt _) hb
  have h2 := uart_init_stores hdr s _ .USART2 baud _ _ _ _ rfl (write_log _ _ _)
    (u32_lt _) hb
  have h3 := uart_init_stores hdr s _ .USART3 baud _ _ _ _ rfl (write_log _ _ _)
    (u32_lt _) hb
  exact ⟨⟨h1.1, h1.2.2⟩, ⟨h2.1, h2.2.2⟩, ⟨h3.1, h3.2.2⟩, or_and_right _ _⟩

/-- Witness of C17: USART3 at 115200 baud from the all-zero state, with the
masks of RM0481: the last four stores. -/
theorem C17_uart_init_order_witness :
    (storesSince Hw.zero (uart_init stm32h563 Hw.zero .USART3 115200).2).drop 13 =
      [(Reg.USART_CR1 .USART3, 0), (Reg.USART_BRR .USART3, 1085),
       (Reg.USART_CR1 .USART3, 12), (Reg.USART_CR1 .USART3, 13)] :=
  (C17_uart_init_order stm32h563 Hw.zero 115200 (by decide) (by decide)).2.2.1.2

/-! ## Clock tree bring-up -/

end Hal
